import Mathlib

/-!
Verification of the event-sourced telecom cart service.

Shallow embedding of the TypeScript sources:
- `src/src/types.ts` — data model (items, events, errors),
- `src/src/cart-service.ts` — `CartStateManager` (event-log store and pure
  projection fold `buildCartFromEvents`) and `CartService` (orchestration with
  context-expiry recovery: `executeWithReplay` / `replayEvents`),
- `src/unnamed/part_000` — `SalesforceCartClient` backend test double.

Conventions of the embedding:
- TypeScript numbers that hold integers (prices, quantities, timestamps) become
  `Int`; the floating-point tax rate becomes `ℚ` and `Math.round` becomes
  Mathlib's `round` (round half toward positive infinity, as in JS).
- The JS `Map` of cart items (insertion-ordered, keyed by item id) becomes a
  `List CartItem` updated in place; the JS `Map` of backend contexts becomes a
  function `Nat → Option (List CartItem)` together with a fresh-id counter.
- Methods that `throw` become functions returning the mutated state paired with
  an `Option CartError`; mutations performed before a throw are kept, as with
  in-place mutation in the source.
- Context expiry (a TTL check in `getValidContext`) is modelled by deleting the
  context from the map; a deleted handle raises `contextExpired` on use.
-/

inductive ItemType where
  | DEVICE
  | PLAN
  | ADDON
deriving DecidableEq, Repr

/-- Mirrors `CartItem` in `types.ts`. -/
structure CartItem where
  id : String
  type : ItemType
  name : String
  price : Int
  quantity : Int
deriving DecidableEq, Repr

/-- Mirrors the `CartEvent` tagged union in `types.ts`. -/
inductive CartEvent where
  | itemAdded (itemId : String) (itemType : ItemType) (name : String)
      (price : Int) (quantity : Int) (timestamp : Int)
  | itemRemoved (itemId : String) (quantity : Int) (timestamp : Int)
  | itemUpdated (itemId : String) (quantity : Int) (timestamp : Int)
deriving DecidableEq, Repr

/-- The error classes of `types.ts`, as a closed variant type. -/
inductive CartError where
  | contextExpired
  | sessionNotFound
  | itemNotFound (itemId : String)
  | invalidQuantity
  | emptyCart
  | sessionCompleted
deriving DecidableEq, Repr

/-- Mirrors `Cart` in `types.ts`. -/
structure Cart where
  sessionId : String
  items : List CartItem
  subtotal : Int
  tax : Int
  total : Int
deriving DecidableEq, Repr

/-- In-place quantity update of the (unique) entry with id `x`, as performed by
`existing.quantity += ...` / `-=` / `=` on the values of the JS items map. -/
def setQuantityById (items : List CartItem) (x : String) (f : CartItem → Int) :
    List CartItem :=
  items.map (fun it => if it.id == x then { it with quantity := f it } else it)

/-- Deletion of the entry with id `x`, as performed by `itemsMap.delete`. -/
def removeById (items : List CartItem) (x : String) : List CartItem :=
  items.filter (fun it => !(it.id == x))

namespace CartStateManager

/-- Loop body of `CartStateManager.buildCartFromEvents` (the `switch` over one
event in `cart-service.ts`, lines 595-631). -/
def applyEvent (items : List CartItem) (e : CartEvent) : List CartItem :=
  match e with
  | .itemAdded itemId itemType nm price quantity _ =>
    if (items.find? (fun it => it.id == itemId)).isSome then
      setQuantityById items itemId (fun it => it.quantity + quantity)
    else
      items ++ [⟨itemId, itemType, nm, price, quantity⟩]
  | .itemRemoved itemId quantity _ =>
    match items.find? (fun it => it.id == itemId) with
    | none => items
    | some existing =>
      if existing.quantity ≤ quantity then removeById items itemId
      else setQuantityById items itemId (fun it => it.quantity - quantity)
  | .itemUpdated itemId quantity _ =>
    setQuantityById items itemId (fun _ => quantity)

/-- The items part of `buildCartFromEvents`: replay all events over the empty
items map. -/
def projItems (events : List CartEvent) : List CartItem :=
  events.foldl applyEvent []

/-- Mirrors `CartStateManager.buildCartFromEvents` (lines 591-645): fold the
events, then compute `subtotal`, `tax = Math.round(subtotal * taxRate)` and
`total`.  The float tax rate is modelled as a rational. -/
def buildCartFromEvents (taxRate : ℚ) (sessionId : String)
    (events : List CartEvent) : Cart :=
  let items := projItems events
  let subtotal : Int :=
    items.foldl (fun sum it => sum + it.price * it.quantity) 0
  let tax : Int := round ((subtotal : ℚ) * taxRate)
  { sessionId := sessionId, items := items, subtotal := subtotal, tax := tax,
    total := subtotal + tax }

end CartStateManager

/-- Events whose payload quantity is positive (`ITEM_REMOVED` is
unconstrained).  The service's input validation guarantees exactly this for
every event it appends. -/
def eventQuantityOk : CartEvent → Prop
  | .itemAdded _ _ _ _ q _ => 0 < q
  | .itemRemoved _ _ _ => True
  | .itemUpdated _ q _ => 0 < q

instance (e : CartEvent) : Decidable (eventQuantityOk e) :=
  match e with
  | .itemAdded _ _ _ _ q _ => inferInstanceAs (Decidable (0 < q))
  | .itemRemoved _ _ _ => inferInstanceAs (Decidable True)
  | .itemUpdated _ q _ => inferInstanceAs (Decidable (0 < q))

/-- The ids of an items list are pairwise distinct (an invariant of the JS
`Map`, maintained by the fold). -/
def idsNodup (items : List CartItem) : Prop :=
  (items.map (fun it => it.id)).Nodup

section ListLemmas

theorem setQuantityById_map_id (items : List CartItem) (x : String)
    (f : CartItem → Int) :
    (setQuantityById items x f).map (fun it => it.id)
      = items.map (fun it => it.id) := by
  induction items with
  | nil => rfl
  | cons a l ih =>
    simp only [setQuantityById, List.map_cons] at ih ⊢
    refine congrArg₂ (· :: ·) ?_ ih
    by_cases h : (a.id == x) = true
    · rw [if_pos h]
    · rw [if_neg h]

theorem find?_setQuantityById (items : List CartItem) (x : String)
    (f : CartItem → Int) :
    (setQuantityById items x f).find? (fun it => it.id == x)
      = (items.find? (fun it => it.id == x)).map
          (fun it => { it with quantity := f it }) := by
  induction items with
  | nil => rfl
  | cons a l ih =>
    simp only [setQuantityById, List.map_cons] at ih ⊢
    by_cases h : (a.id == x) = true
    · have hh : (({ a with quantity := f a } : CartItem).id == x) = true := h
      rw [if_pos h]
      simp only [List.find?_cons, hh, h]
      rfl
    · have hfalse : (a.id == x) = false := by simpa using h
      have hh : ((a : CartItem).id == x) = false := hfalse
      rw [if_neg h]
      simp only [List.find?_cons, hfalse]
      exact ih

theorem find?_removeById (items : List CartItem) (x : String) :
    (removeById items x).find? (fun it => it.id == x) = none := by
  rw [List.find?_eq_none]
  intro it hmem
  rcases List.mem_filter.mp hmem with ⟨_, hcond⟩
  simpa using hcond

theorem mem_setQuantityById {items : List CartItem} {x : String}
    {f : CartItem → Int} {it : CartItem} (h : it ∈ setQuantityById items x f) :
    ∃ a ∈ items, it = if a.id == x then { a with quantity := f a } else a := by
  rcases List.mem_map.mp h with ⟨a, ha, rfl⟩
  exact ⟨a, ha, rfl⟩

theorem find?_eq_of_mem_of_idsNodup {items : List CartItem} {x : String}
    {ex it : CartItem} (hnd : idsNodup items)
    (hfind : items.find? (fun i => i.id == x) = some ex)
    (hmem : it ∈ items) (hid : it.id = x) : it = ex := by
  induction items with
  | nil => cases hmem
  | cons a l ih =>
    unfold idsNodup at hnd
    rw [List.map_cons, List.nodup_cons] at hnd
    obtain ⟨hnotin, hndl⟩ := hnd
    by_cases h : (a.id == x) = true
    · simp only [List.find?_cons, h, Option.some.injEq] at hfind
      subst hfind
      rcases List.mem_cons.mp hmem with rfl | hl
      · rfl
      · exfalso
        apply hnotin
        have h2 : a.id = it.id := by rw [hid]; exact beq_iff_eq.mp h
        rw [h2]
        exact List.mem_map.mpr ⟨it, hl, rfl⟩
    · have hfalse : (a.id == x) = false := by simpa using h
      simp only [List.find?_cons, hfalse] at hfind
      rcases List.mem_cons.mp hmem with rfl | hl
      · exact absurd (beq_iff_eq.mpr hid) (by simpa using h)
      · exact ih hndl hfind hl

end ListLemmas

section FoldInvariants

open CartStateManager

theorem idsNodup_applyEvent {items : List CartItem} (e : CartEvent)
    (h : idsNodup items) : idsNodup (applyEvent items e) := by
  cases e with
  | itemAdded itemId ty nm pr q ts =>
    simp only [applyEvent]
    split
    · unfold idsNodup
      rw [setQuantityById_map_id]
      exact h
    · rename_i hf
      have hnone : items.find? (fun it => it.id == itemId) = none := by
        rcases hopt : items.find? (fun it => it.id == itemId) with _ | v
        · exact hopt
        · exact absurd (by simp [hopt]) hf
      rw [List.find?_eq_none] at hnone
      unfold idsNodup
      rw [List.map_append, List.nodup_append]
      refine ⟨h, by simp, ?_⟩
      intro y hy hmem1
      rcases List.mem_map.mp hy with ⟨a, ha, rfl⟩
      rw [List.map_cons, List.map_nil, List.mem_singleton] at hmem1
      exact hnone a ha (by simp [hmem1])
  | itemRemoved itemId q ts =>
    simp only [applyEvent]
    split
    · exact h
    · split
      · unfold idsNodup removeById
        exact List.Nodup.sublist ((List.filter_sublist _).map _) h
      · unfold idsNodup
        rw [setQuantityById_map_id]
        exact h
  | itemUpdated itemId q ts =>
    simp only [applyEvent]
    unfold idsNodup
    rw [setQuantityById_map_id]
    exact h

theorem idsNodup_foldl {events : List CartEvent} :
    ∀ {items : List CartItem}, idsNodup items →
      idsNodup (events.foldl applyEvent items) := by
  induction events with
  | nil => intro items h; exact h
  | cons e rest ih =>
    intro items h
    exact ih (idsNodup_applyEvent e h)

theorem idsNodup_projItems (events : List CartEvent) :
    idsNodup (projItems events) :=
  idsNodup_foldl (by simp [idsNodup])

theorem applyEvent_pos {items : List CartItem} {e : CartEvent}
    (hnd : idsNodup items) (hpos : ∀ it ∈ items, 0 < it.quantity)
    (hok : eventQuantityOk e) :
    ∀ it ∈ applyEvent items e, 0 < it.quantity := by
  cases e with
  | itemAdded itemId ty nm pr q ts =>
    intro it hit
    simp only [applyEvent] at hit
    split at hit
    · rcases mem_setQuantityById hit with ⟨a, ha, rfl⟩
      by_cases hid : (a.id == itemId) = true
      · rw [if_pos hid]
        exact add_pos (hpos a ha) hok
      · rw [if_neg hid]
        exact hpos a ha
    · rcases List.mem_append.mp hit with hl | hr
      · exact hpos it hl
      · rcases List.mem_singleton.mp hr with rfl
        exact hok
  | itemRemoved itemId q ts =>
    intro it hit
    simp only [applyEvent] at hit
    split at hit
    · exact hpos it hit
    · rename_i ex hf
      split at hit
      · exact hpos it (List.mem_of_mem_filter hit)
      · rename_i hlt
        rcases mem_setQuantityById hit with ⟨a, ha, rfl⟩
        by_cases hid : (a.id == itemId) = true
        · rw [if_pos hid]
          have ha2 : a = ex :=
            find?_eq_of_mem_of_idsNodup hnd hf ha (beq_iff_eq.mp hid)
          subst ha2
          exact sub_pos.mpr (lt_of_not_le hlt)
        · rw [if_neg hid]
          exact hpos a ha
  | itemUpdated itemId q ts =>
    intro it hit
    simp only [applyEvent] at hit
    rcases mem_setQuantityById hit with ⟨a, ha, rfl⟩
    by_cases hid : (a.id == itemId) = true
    · rw [if_pos hid]; exact hok
    · rw [if_neg hid]; exact hpos a ha

theorem foldl_pos {events : List CartEvent}
    (hev : ∀ e ∈ events, eventQuantityOk e) :
    ∀ {items : List CartItem}, idsNodup items →
      (∀ it ∈ items, 0 < it.quantity) →
      ∀ it ∈ events.foldl applyEvent items, 0 < it.quantity := by
  induction events with
  | nil => intro items _ hpos; exact hpos
  | cons e rest ih =>
    intro items hnd hpos
    exact ih (fun x hx => hev x (List.mem_cons_of_mem _ hx))
      (idsNodup_applyEvent e hnd)
      (applyEvent_pos hnd hpos (hev e (List.mem_cons_self _ _)))

end FoldInvariants

/-- C1 (amended): for every event sequence whose `ITEM_ADDED` and
`ITEM_UPDATED` events all carry positive quantities, every item in the
resulting projection has quantity > 0; and an `ITEM_REMOVED` whose quantity is
greater than or equal to the item's current quantity deletes the item from the
items map entirely. -/
theorem projected_quantities_positive :
    (∀ events : List CartEvent, (∀ e ∈ events, eventQuantityOk e) →
      ∀ it ∈ CartStateManager.projItems events, 0 < it.quantity)
    ∧ (∀ (items : List CartItem) (itemId : String) (q ts : Int)
        (ex : CartItem),
        items.find? (fun it => it.id == itemId) = some ex →
        ex.quantity ≤ q →
        (CartStateManager.applyEvent items
            (.itemRemoved itemId q ts)).find? (fun it => it.id == itemId)
          = none) := by
  constructor
  · intro events hev
    exact foldl_pos hev (by simp [idsNodup]) (by intro it h; cases h)
  · intro items itemId q ts ex hfind hle
    simp only [CartStateManager.applyEvent, hfind, if_pos hle]
    exact find?_removeById items itemId

/-- Witness for the amended C1 at a concrete event sequence. -/
theorem projected_quantities_positive_witness :
    0 < (CartItem.mk "a" ItemType.DEVICE "A" 5 2).quantity :=
  projected_quantities_positive.1
    [CartEvent.itemAdded "a" ItemType.DEVICE "A" 5 2 0] (by decide)
    (CartItem.mk "a" ItemType.DEVICE "A" 5 2) (by decide)

/-- C1 counterexample: the claim quantifies over every event sequence given to
the fold, but an `ITEM_ADDED` event carrying quantity 0 puts an item with
quantity 0 into the projection. -/
theorem projected_quantity_zero_cex :
    (CartItem.mk "x" ItemType.DEVICE "X" 100 0) ∈
      CartStateManager.projItems
        [CartEvent.itemAdded "x" ItemType.DEVICE "X" 100 0 0]
    ∧ ¬ (0 < (CartItem.mk "x" ItemType.DEVICE "X" 100 0).quantity) := by
  decide

section Totals

theorem foldl_price_sum (l : List CartItem) :
    ∀ a : Int, l.foldl (fun sum it => sum + it.price * it.quantity) a
      = a + (l.map (fun it => it.price * it.quantity)).sum := by
  induction l with
  | nil => intro a; simp
  | cons x l ih =>
    intro a
    simp only [List.foldl_cons, List.map_cons, List.sum_cons]
    rw [ih, add_assoc]

end Totals

/-- Events of the spec's concrete scenario A: add price 99900 qty 1, then add
price 7000 qty 1. -/
def scenarioAEvents : List CartEvent :=
  [CartEvent.itemAdded "iphone15" ItemType.DEVICE "iPhone" 99900 1 0,
   CartEvent.itemAdded "plan1" ItemType.PLAN "Plan" 7000 1 1]

/-- C7: every cart built by the projection satisfies
`subtotal = Σ price × quantity` over its own items,
`tax = round(subtotal × taxRate)` and `total = subtotal + tax`, all in integer
minor units; and the concrete scenario (add price 99900 qty 1, add price 7000
qty 1, tax rate 1/10) yields subtotal 106900, tax 10690, total 117590. -/
theorem cart_totals_correct :
    (∀ (r : ℚ) (sid : String) (events : List CartEvent),
      (CartStateManager.buildCartFromEvents r sid events).subtotal
          = ((CartStateManager.buildCartFromEvents r sid events).items.map
              (fun it => it.price * it.quantity)).sum
      ∧ (CartStateManager.buildCartFromEvents r sid events).tax
          = round (((CartStateManager.buildCartFromEvents r sid
              events).subtotal : ℚ) * r)
      ∧ (CartStateManager.buildCartFromEvents r sid events).total
          = (CartStateManager.buildCartFromEvents r sid events).subtotal
            + (CartStateManager.buildCartFromEvents r sid events).tax)
    ∧ (CartStateManager.buildCartFromEvents (1/10) "s" scenarioAEvents).subtotal
        = 106900
    ∧ (CartStateManager.buildCartFromEvents (1/10) "s" scenarioAEvents).tax
        = 10690
    ∧ (CartStateManager.buildCartFromEvents (1/10) "s" scenarioAEvents).total
        = 117590 := by
  have hsub :
      (CartStateManager.buildCartFromEvents (1/10) "s"
        scenarioAEvents).subtotal = 106900 := by decide
  have htaxdef :
      (CartStateManager.buildCartFromEvents (1/10) "s" scenarioAEvents).tax
        = round (((CartStateManager.buildCartFromEvents (1/10) "s"
            scenarioAEvents).subtotal : ℚ) * (1/10)) := rfl
  have htax :
      (CartStateManager.buildCartFromEvents (1/10) "s" scenarioAEvents).tax
        = 10690 := by
    rw [htaxdef, hsub]
    norm_num [round_eq]
  have htot :
      (CartStateManager.buildCartFromEvents (1/10) "s" scenarioAEvents).total
        = (CartStateManager.buildCartFromEvents (1/10) "s"
            scenarioAEvents).subtotal
          + (CartStateManager.buildCartFromEvents (1/10) "s"
              scenarioAEvents).tax := rfl
  refine ⟨?_, hsub, htax, by rw [htot, hsub, htax]; decide⟩
  intro r sid events
  refine ⟨?_, rfl, rfl⟩
  simp only [CartStateManager.buildCartFromEvents]
  rw [foldl_price_sum]
  simp

/-- C10: when an `ITEM_ADDED` event carries an id already present, the fold
adds the quantity to the existing line and keeps the projected type, name and
price unchanged. -/
theorem later_add_keeps_projected_fields
    (events : List CartEvent) (itemId : String) (ty : ItemType) (nm : String)
    (pr q ts : Int) (ex : CartItem)
    (h : (CartStateManager.projItems events).find? (fun it => it.id == itemId)
        = some ex) :
    (CartStateManager.projItems
        (events ++ [CartEvent.itemAdded itemId ty nm pr q ts])).find?
        (fun it => it.id == itemId)
      = some { ex with quantity := ex.quantity + q } := by
  unfold CartStateManager.projItems at *
  rw [List.foldl_append]
  simp only [List.foldl_cons, List.foldl_nil]
  simp only [CartStateManager.applyEvent]
  rw [if_pos (by rw [h]; rfl)]
  rw [find?_setQuantityById, h]
  rfl

/-- Witness for C10 at a concrete log: the second add of `"a"` with a
different price keeps price 5 and merges quantities. -/
theorem later_add_keeps_projected_fields_witness :
    (CartStateManager.projItems
        [CartEvent.itemAdded "a" ItemType.DEVICE "A" 5 2 0,
         CartEvent.itemAdded "a" ItemType.ADDON "B" 9 3 1]).find?
        (fun it => it.id == "a")
      = some (CartItem.mk "a" ItemType.DEVICE "A" 5 5) :=
  later_add_keeps_projected_fields
    [CartEvent.itemAdded "a" ItemType.DEVICE "A" 5 2 0] "a" ItemType.ADDON "B"
    9 3 1 (CartItem.mk "a" ItemType.DEVICE "A" 5 2) (by decide)

/-- Mirrors `AddItemRequest` in `types.ts`. -/
structure AddItemRequest where
  itemId : String
  type : ItemType
  name : String
  price : Int
  quantity : Int
deriving DecidableEq, Repr

/-- State of the `SalesforceCartClient` test double: the live contexts (an
expired or deleted context is absent from the map) and a counter issuing fresh
handles in place of `nanoid`. -/
structure SfState where
  contexts : Nat → Option (List CartItem)
  nextId : Nat

namespace SalesforceCartClient

/-- Mirrors `createContext` (part_000 lines 31-41): always succeeds with a
fresh, empty, live context. -/
def createContext (sf : SfState) : SfState × Nat :=
  ({ contexts := fun c => if c = sf.nextId then some [] else sf.contexts c,
     nextId := sf.nextId + 1 }, sf.nextId)

/-- Store back the items of context `ctxId` (in-place mutation in the
source). -/
def setCtx (sf : SfState) (ctxId : Nat) (items : List CartItem) : SfState :=
  { sf with
    contexts := fun c => if c = ctxId then some items else sf.contexts c }

/-- Item-level body of `SalesforceCartClient.addItem` (part_000 lines 46-59):
increment the quantity of an existing line, otherwise append a copy. -/
def sfItemsAdd (items : List CartItem) (item : CartItem) : List CartItem :=
  if (items.find? (fun it => it.id == item.id)).isSome then
    setQuantityById items item.id (fun it => it.quantity + item.quantity)
  else
    items ++ [item]

/-- Item-level body of `removeItem` (part_000 lines 64-81): `ItemNotFound`
when absent; delete the line when the quantity is omitted or covers the
current quantity, otherwise subtract. -/
def sfItemsRemove (items : List CartItem) (itemId : String) (q : Option Int) :
    Except CartError (List CartItem) :=
  match items.find? (fun it => it.id == itemId) with
  | none => .error (.itemNotFound itemId)
  | some item =>
    match q with
    | none => .ok (removeById items itemId)
    | some v =>
      if item.quantity ≤ v then .ok (removeById items itemId)
      else .ok (setQuantityById items itemId (fun it => it.quantity - v))

/-- Item-level body of `updateItem` (part_000 lines 86-96). -/
def sfItemsUpdate (items : List CartItem) (itemId : String) (v : Int) :
    Except CartError (List CartItem) :=
  match items.find? (fun it => it.id == itemId) with
  | none => .error (.itemNotFound itemId)
  | some _ => .ok (setQuantityById items itemId (fun _ => v))

/-- Stateful `addItem`: `getValidContext` (raising `ContextExpired` for a
missing or expired handle) followed by the item-level update. -/
def addItem (sf : SfState) (ctxId : Nat) (item : CartItem) :
    SfState × Option CartError :=
  match sf.contexts ctxId with
  | none => (sf, some .contextExpired)
  | some items => (setCtx sf ctxId (sfItemsAdd items item), none)

/-- Stateful `removeItem`. -/
def removeItem (sf : SfState) (ctxId : Nat) (itemId : String)
    (q : Option Int) : SfState × Option CartError :=
  match sf.contexts ctxId with
  | none => (sf, some .contextExpired)
  | some items =>
    match sfItemsRemove items itemId q with
    | .error e => (sf, some e)
    | .ok items2 => (setCtx sf ctxId items2, none)

/-- Stateful `updateItem`. -/
def updateItem (sf : SfState) (ctxId : Nat) (itemId : String) (v : Int) :
    SfState × Option CartError :=
  match sf.contexts ctxId with
  | none => (sf, some .contextExpired)
  | some items =>
    match sfItemsUpdate items itemId v with
    | .error e => (sf, some e)
    | .ok items2 => (setCtx sf ctxId items2, none)

/-- Stateful `checkout` (part_000 lines 111-122): only validates the context
and produces an order id (the id itself is irrelevant to the claims). -/
def checkout (sf : SfState) (ctxId : Nat) : SfState × Option CartError :=
  match sf.contexts ctxId with
  | none => (sf, some .contextExpired)
  | some _ => (sf, none)

end SalesforceCartClient

/-- Mirrors `ExperienceSession` (one session suffices for the claims; the
`lastActivity` timestamp only feeds the out-of-scope sweep). -/
structure Session where
  sfContextId : Option Nat
  events : List CartEvent
  checkedOut : Bool

/-- Combined state the orchestrator acts on: the session owned by the state
manager plus the Salesforce client state. -/
structure ServiceState where
  session : Session
  sf : SfState

/-- A freshly created session (`createSession`): empty log, no backend
context, not checked out, no live backend contexts. -/
def initState : ServiceState :=
  { session := { sfContextId := none, events := [], checkedOut := false },
    sf := { contexts := fun _ => none, nextId := 0 } }

namespace CartService

/-- Mirrors `CartService.ensureSfContext` (cart-service.ts lines 302-312). -/
def ensureSfContext (st : ServiceState) : ServiceState × Nat :=
  match st.session.sfContextId with
  | some c => (st, c)
  | none =>
    let p := SalesforceCartClient.createContext st.sf
    ({ session := { st.session with sfContextId := some p.2 }, sf := p.1 },
      p.2)

/-- Mirrors `CartStateManager.appendEvent`. -/
def appendEvent (st : ServiceState) (e : CartEvent) : ServiceState :=
  { st with
    session := { st.session with events := st.session.events ++ [e] } }

/-- Mirrors `CartStateManager.markCheckedOut`. -/
def markCheckedOut (st : ServiceState) : ServiceState :=
  { st with session := { st.session with checkedOut := true } }

/-- The backend closure passed to `executeWithReplay` by `addItem` (lines
72-75): resolve a context, then add. -/
def backendAdd (item : CartItem) (s : ServiceState) :
    ServiceState × Option CartError :=
  let p := ensureSfContext s
  let r := SalesforceCartClient.addItem p.1.sf p.2 item
  ({ p.1 with sf := r.1 }, r.2)

/-- The backend closure passed to `executeWithReplay` by `removeItem` (lines
124-127). -/
def backendRemove (itemId : String) (q : Int) (s : ServiceState) :
    ServiceState × Option CartError :=
  let p := ensureSfContext s
  let r := SalesforceCartClient.removeItem p.1.sf p.2 itemId (some q)
  ({ p.1 with sf := r.1 }, r.2)

/-- The backend closure passed to `executeWithReplay` by `updateItem` (lines
167-170). -/
def backendUpdate (itemId : String) (v : Int) (s : ServiceState) :
    ServiceState × Option CartError :=
  let p := ensureSfContext s
  let r := SalesforceCartClient.updateItem p.1.sf p.2 itemId v
  ({ p.1 with sf := r.1 }, r.2)

/-- The backend closure passed to `executeWithReplay` by `checkout` (lines
201-204). -/
def backendCheckout (s : ServiceState) : ServiceState × Option CartError :=
  let p := ensureSfContext s
  let r := SalesforceCartClient.checkout p.1.sf p.2
  ({ p.1 with sf := r.1 }, r.2)

/-- One iteration of the replay loop in `CartService.replayEvents` (lines
252-296): re-issue the event's backend mutation; an `ItemNotFound` failure on
a remove or update step is swallowed. -/
def replayEventStep (st : ServiceState) (ctxId : Nat) (e : CartEvent) :
    ServiceState × Option CartError :=
  match e with
  | .itemAdded itemId ty nm pr q _ =>
    let r := SalesforceCartClient.addItem st.sf ctxId ⟨itemId, ty, nm, pr, q⟩
    ({ st with sf := r.1 }, r.2)
  | .itemRemoved itemId q _ =>
    let r := SalesforceCartClient.removeItem st.sf ctxId itemId (some q)
    match r.2 with
    | some (.itemNotFound _) => ({ st with sf := r.1 }, none)
    | _ => ({ st with sf := r.1 }, r.2)
  | .itemUpdated itemId q _ =>
    let r := SalesforceCartClient.updateItem st.sf ctxId itemId q
    match r.2 with
    | some (.itemNotFound _) => ({ st with sf := r.1 }, none)
    | _ => ({ st with sf := r.1 }, r.2)

/-- The `for` loop of `replayEvents`: stop at the first propagating error. -/
def replayLoop (st : ServiceState) (ctxId : Nat) :
    List CartEvent → ServiceState × Option CartError
  | [] => (st, none)
  | e :: rest =>
    let r := replayEventStep st ctxId e
    match r.2 with
    | none => replayLoop r.1 ctxId rest
    | some err => (r.1, some err)

/-- Mirrors `CartService.replayEvents` (lines 243-297): create a new context,
store its handle on the session, then replay every logged event against it. -/
def replayEvents (st : ServiceState) : ServiceState × Option CartError :=
  let p := SalesforceCartClient.createContext st.sf
  let st1 : ServiceState :=
    { session := { st.session with sfContextId := some p.2 }, sf := p.1 }
  replayLoop st1 p.2 st1.session.events

/-- Mirrors `CartService.executeWithReplay` (lines 223-238): run the
operation; on `ContextExpired` replay the log and retry exactly once; any
other error, and any error of the retry, propagates. -/
def executeWithReplay (st : ServiceState)
    (operation : ServiceState → ServiceState × Option CartError) :
    ServiceState × Option CartError :=
  let r := operation st
  match r.2 with
  | none => r
  | some .contextExpired =>
    let rp := replayEvents r.1
    match rp.2 with
    | none => operation rp.1
    | some e => (rp.1, some e)
  | some e => (r.1, some e)

/-- Mirrors `CartService.validateAddItemRequest` (lines 317-333).  All
failures are `InvalidQuantityError` in the source; the unrepresentable
type-level checks (non-string ids, invalid enum members) are omitted. -/
def validateAddItemRequest (req : AddItemRequest) : Option CartError :=
  if req.itemId = "" then some .invalidQuantity
  else if req.name = "" then some .invalidQuantity
  else if req.price < 0 then some .invalidQuantity
  else if req.quantity ≤ 0 then some .invalidQuantity
  else none

/-- The `quantity !== undefined && quantity <= 0` guard of `removeItem`. -/
def qNonPositive : Option Int → Bool
  | some v => decide (v ≤ 0)
  | none => false

/-- The resolved removal amount of `removeItem` (lines 118-121):
`quantity === undefined ? existing.quantity : min(quantity,
existing.quantity)`. -/
def resolveQty : Option Int → Int → Int
  | none, cur => cur
  | some v, cur => min v cur

/-- Mirrors `CartService.addItem` (lines 54-90). -/
def addItem (st : ServiceState) (req : AddItemRequest) (now : Int) :
    ServiceState × Option CartError :=
  match validateAddItemRequest req with
  | some e => (st, some e)
  | none =>
    if st.session.checkedOut then (st, some .sessionCompleted)
    else
      let item : CartItem :=
        ⟨req.itemId, req.type, req.name, req.price, req.quantity⟩
      let r := executeWithReplay st (backendAdd item)
      match r.2 with
      | some e => (r.1, some e)
      | none =>
        (appendEvent r.1
          (.itemAdded req.itemId req.type req.name req.price req.quantity
            now), none)

/-- Mirrors `CartService.removeItem` (lines 95-139). -/
def removeItem (st : ServiceState) (itemId : String) (q : Option Int)
    (now : Int) : ServiceState × Option CartError :=
  if qNonPositive q then (st, some .invalidQuantity)
  else if st.session.checkedOut then (st, some .sessionCompleted)
  else
    match (CartStateManager.projItems st.session.events).find?
        (fun it => it.id == itemId) with
    | none => (st, some (.itemNotFound itemId))
    | some existing =>
      let quantityToRemove := resolveQty q existing.quantity
      let r := executeWithReplay st (backendRemove itemId quantityToRemove)
      match r.2 with
      | some e => (r.1, some e)
      | none =>
        (appendEvent r.1 (.itemRemoved itemId quantityToRemove now), none)

/-- Mirrors `CartService.updateItem` (lines 144-182). -/
def updateItem (st : ServiceState) (itemId : String) (v : Int) (now : Int) :
    ServiceState × Option CartError :=
  if v ≤ 0 then (st, some .invalidQuantity)
  else if st.session.checkedOut then (st, some .sessionCompleted)
  else
    match (CartStateManager.projItems st.session.events).find?
        (fun it => it.id == itemId) with
    | none => (st, some (.itemNotFound itemId))
    | some _ =>
      let r := executeWithReplay st (backendUpdate itemId v)
      match r.2 with
      | some e => (r.1, some e)
      | none => (appendEvent r.1 (.itemUpdated itemId v now), none)

/-- Mirrors `CartService.checkout` (lines 187-218). -/
def checkout (st : ServiceState) : ServiceState × Option CartError :=
  if st.session.checkedOut then (st, some .sessionCompleted)
  else if CartStateManager.projItems st.session.events = [] then
    (st, some .emptyCart)
  else
    let r := executeWithReplay st backendCheckout
    match r.2 with
    | some e => (r.1, some e)
    | none => (markCheckedOut r.1, none)

end CartService

/-- A client-facing mutating operation (the three operations of claim C2). -/
inductive ClientOp where
  | add (req : AddItemRequest)
  | remove (itemId : String) (quantity : Option Int)
  | update (itemId : String) (quantity : Int)
deriving DecidableEq, Repr

/-- Dispatch one client operation. -/
def dispatch (st : ServiceState) (op : ClientOp) (now : Int) :
    ServiceState × Option CartError :=
  match op with
  | .add req => CartService.addItem st req now
  | .remove itemId q => CartService.removeItem st itemId q now
  | .update itemId v => CartService.updateItem st itemId v now

/-- A backend-context expiry: every live context passes its idle TTL and is
dropped, so the session's stored handle (if any) becomes invalid. -/
def expireAllContexts (st : ServiceState) : ServiceState :=
  { st with sf := { st.sf with contexts := fun _ => none } }

/-- Run a sequence of client operations; the flag preceding each operation
injects a backend-context expiry at that point.  A failed operation leaves
the session state behind and the run continues, as an HTTP client would. -/
def runOps (st : ServiceState) : List (Bool × ClientOp) → ServiceState
  | [] => st
  | (flag, op) :: rest =>
    runOps (dispatch (if flag then expireAllContexts st else st) op 0).1 rest

/-- Specification-level effect of one operation on the event log alone,
mirroring the branch structure of the service operations. -/
def absStep (ev : List CartEvent) (co : Bool) (op : ClientOp) (now : Int) :
    List CartEvent :=
  match op with
  | .add req =>
    match CartService.validateAddItemRequest req with
    | some _ => ev
    | none =>
      if co then ev
      else
        ev ++ [.itemAdded req.itemId req.type req.name req.price req.quantity
          now]
  | .remove itemId q =>
    if CartService.qNonPositive q then ev
    else if co then ev
    else
      match (CartStateManager.projItems ev).find?
          (fun it => it.id == itemId) with
      | none => ev
      | some existing =>
        ev ++ [.itemRemoved itemId
          (CartService.resolveQty q existing.quantity) now]
  | .update itemId v =>
    if v ≤ 0 then ev
    else if co then ev
    else
      match (CartStateManager.projItems ev).find?
          (fun it => it.id == itemId) with
      | none => ev
      | some _ => ev ++ [.itemUpdated itemId v now]

/-- Specification-level run over the event log alone. -/
def absRun (ev : List CartEvent) (co : Bool) : List ClientOp → List CartEvent
  | [] => ev
  | op :: rest => absRun (absStep ev co op 0) co rest

/-- Coherence of the backend with the log: if the session's stored handle is
still live, its item set equals the projection of the event log; a session
without a handle has an empty log. -/
def ctxCoherentB (st : ServiceState) : Bool :=
  match st.session.sfContextId with
  | none => st.session.events == []
  | some c =>
    match st.sf.contexts c with
    | none => true
    | some items => items == CartStateManager.projItems st.session.events

def ctxCoherent (st : ServiceState) : Prop := ctxCoherentB st = true

instance (st : ServiceState) : Decidable (ctxCoherent st) :=
  inferInstanceAs (Decidable (ctxCoherentB st = true))

section ReplayLemmas

theorem setCtx_get (sf : SfState) (c : Nat) (items : List CartItem) :
    (SalesforceCartClient.setCtx sf c items).contexts c = some items := by
  simp [SalesforceCartClient.setCtx]

theorem setCtx_self {sf : SfState} {c : Nat} {items : List CartItem}
    (h : sf.contexts c = some items) :
    SalesforceCartClient.setCtx sf c items = sf := by
  unfold SalesforceCartClient.setCtx
  cases sf with
  | mk contexts nextId =>
    simp only [SfState.mk.injEq, and_true]
    funext c'
    by_cases hc : c' = c
    · subst hc
      rw [if_pos rfl]
      exact h.symm
    · rw [if_neg hc]

theorem setCtx_setCtx (sf : SfState) (c : Nat) (a b : List CartItem) :
    SalesforceCartClient.setCtx (SalesforceCartClient.setCtx sf c a) c b
      = SalesforceCartClient.setCtx sf c b := by
  unfold SalesforceCartClient.setCtx
  simp only [SfState.mk.injEq, and_true]
  funext c'
  by_cases hc : c' = c
  · simp [hc]
  · simp [hc]

theorem map_if_id_of_forall (x : String) (f : CartItem → Int) :
    ∀ l : List CartItem, (∀ b ∈ l, (b.id == x) = false) →
      l.map (fun it => if it.id == x then { it with quantity := f it } else it)
        = l := by
  intro l
  induction l with
  | nil => intro _; rfl
  | cons a l ih =>
    intro h
    rw [List.map_cons, if_neg (by simp [h a (List.mem_cons_self a l)]),
      ih (fun b hb => h b (List.mem_cons_of_mem a hb))]

theorem setQuantityById_of_none {items : List CartItem} {x : String}
    (f : CartItem → Int)
    (h : items.find? (fun it => it.id == x) = none) :
    setQuantityById items x f = items := by
  rw [List.find?_eq_none] at h
  unfold setQuantityById
  exact map_if_id_of_forall x f items (fun b hb => by
    have := h b hb
    simpa using this)

theorem sfItemsAdd_eq_applyEvent (items : List CartItem) (itemId : String)
    (ty : ItemType) (nm : String) (pr q ts : Int) :
    SalesforceCartClient.sfItemsAdd items ⟨itemId, ty, nm, pr, q⟩
      = CartStateManager.applyEvent items
          (.itemAdded itemId ty nm pr q ts) := rfl

theorem replayEventStep_ok (st : ServiceState) (ctxId : Nat)
    (items : List CartItem) (e : CartEvent)
    (h : st.sf.contexts ctxId = some items) :
    CartService.replayEventStep st ctxId e
      = ({ st with
            sf := SalesforceCartClient.setCtx st.sf ctxId
              (CartStateManager.applyEvent items e) }, none) := by
  cases e with
  | itemAdded itemId ty nm pr q ts =>
    simp only [CartService.replayEventStep, SalesforceCartClient.addItem, h]
    rw [sfItemsAdd_eq_applyEvent items itemId ty nm pr q ts]
  | itemRemoved itemId q ts =>
    rcases hf : items.find? (fun it => it.id == itemId) with _ | ex
    · simp only [CartService.replayEventStep, SalesforceCartClient.removeItem,
        SalesforceCartClient.sfItemsRemove, h, hf,
        CartStateManager.applyEvent]
      rw [setCtx_self h]
    · by_cases hle : ex.quantity ≤ q
      · simp only [CartService.replayEventStep,
          SalesforceCartClient.removeItem,
          SalesforceCartClient.sfItemsRemove, h, hf, if_pos hle,
          CartStateManager.applyEvent]
      · simp only [CartService.replayEventStep,
          SalesforceCartClient.removeItem,
          SalesforceCartClient.sfItemsRemove, h, hf, if_neg hle,
          CartStateManager.applyEvent]
  | itemUpdated itemId q ts =>
    rcases hf : items.find? (fun it => it.id == itemId) with _ | ex
    · simp only [CartService.replayEventStep, SalesforceCartClient.updateItem,
        SalesforceCartClient.sfItemsUpdate, h, hf,
        CartStateManager.applyEvent]
      rw [setQuantityById_of_none _ hf, setCtx_self h]
    · simp only [CartService.replayEventStep, SalesforceCartClient.updateItem,
        SalesforceCartClient.sfItemsUpdate, h, hf,
        CartStateManager.applyEvent]

theorem replayLoop_ok :
    ∀ (events : List CartEvent) (st : ServiceState) (ctxId : Nat)
      (items : List CartItem), st.sf.contexts ctxId = some items →
      CartService.replayLoop st ctxId events
        = ({ st with
              sf := SalesforceCartClient.setCtx st.sf ctxId
                (events.foldl CartStateManager.applyEvent items) }, none) := by
  intro events
  induction events with
  | nil =>
    intro st ctxId items h
    simp only [CartService.replayLoop, List.foldl_nil]
    rw [setCtx_self h]
  | cons e rest ih =>
    intro st ctxId items h
    simp only [CartService.replayLoop]
    rw [replayEventStep_ok st ctxId items e h]
    have h2 : ({ st with
        sf := SalesforceCartClient.setCtx st.sf ctxId
          (CartStateManager.applyEvent items e) } :
          ServiceState).sf.contexts ctxId
        = some (CartStateManager.applyEvent items e) := setCtx_get _ _ _
    rw [ih _ ctxId _ h2]
    simp only [List.foldl_cons]
    rw [setCtx_setCtx]

theorem replayEvents_ok (st : ServiceState) :
    CartService.replayEvents st
      = ({ session := { st.session with sfContextId := some st.sf.nextId },
           sf := SalesforceCartClient.setCtx
             (SalesforceCartClient.createContext st.sf).1 st.sf.nextId
             (CartStateManager.projItems st.session.events) }, none) := by
  have h1 : ({ session := { st.session with sfContextId := some st.sf.nextId },
               sf := (SalesforceCartClient.createContext st.sf).1 } :
      ServiceState).sf.contexts st.sf.nextId = some [] := by
    simp [SalesforceCartClient.createContext]
  show CartService.replayLoop
      { session := { st.session with sfContextId := some st.sf.nextId },
        sf := (SalesforceCartClient.createContext st.sf).1 } st.sf.nextId
      st.session.events = _
  rw [replayLoop_ok st.session.events _ st.sf.nextId [] h1]
  rfl

end ReplayLemmas

/-- C3: behavior of the recovery-wrapped call.  A successful first attempt is
returned as-is; a non-expiry failure propagates with no recovery; on a
context-expired failure the log is replayed once onto a brand-new stored
handle (replay always completes here, rebuilding exactly the projection of
the full log) and the mutation is retried exactly once, its outcome — success
or any failure, including a second expiry — being returned to the caller with
no further recovery. -/
theorem recovery_wrapped_call_behavior :
    (∀ (st : ServiceState)
        (op : ServiceState → ServiceState × Option CartError)
        (st1 : ServiceState), op st = (st1, none) →
        CartService.executeWithReplay st op = (st1, none))
    ∧ (∀ (st : ServiceState)
        (op : ServiceState → ServiceState × Option CartError)
        (st1 : ServiceState) (e : CartError), op st = (st1, some e) →
        e ≠ CartError.contextExpired →
        CartService.executeWithReplay st op = (st1, some e))
    ∧ (∀ (st : ServiceState)
        (op : ServiceState → ServiceState × Option CartError)
        (st1 : ServiceState), op st = (st1, some CartError.contextExpired) →
        CartService.executeWithReplay st op
          = op (CartService.replayEvents st1).1)
    ∧ (∀ st1 : ServiceState,
        (CartService.replayEvents st1).2 = none
        ∧ (CartService.replayEvents st1).1.session.sfContextId
            = some st1.sf.nextId
        ∧ (CartService.replayEvents st1).1.sf.contexts st1.sf.nextId
            = some (CartStateManager.projItems st1.session.events)
        ∧ (CartService.replayEvents st1).1.session.events
            = st1.session.events) := by
  refine ⟨?_, ?_, ?_, ?_⟩
  · intro st op st1 h
    simp only [CartService.executeWithReplay, h]
  · intro st op st1 e h hne
    cases e with
    | contextExpired => exact absurd rfl hne
    | sessionNotFound => simp only [CartService.executeWithReplay, h]
    | itemNotFound itemId => simp only [CartService.executeWithReplay, h]
    | invalidQuantity => simp only [CartService.executeWithReplay, h]
    | emptyCart => simp only [CartService.executeWithReplay, h]
    | sessionCompleted => simp only [CartService.executeWithReplay, h]
  · intro st op st1 h
    simp only [CartService.executeWithReplay, h, replayEvents_ok]
  · intro st1
    rw [replayEvents_ok]
    exact ⟨rfl, rfl, setCtx_get _ _ _, rfl⟩

/-- Fixture operation that always reports an expired context. -/
def opExpireW (s : ServiceState) : ServiceState × Option CartError :=
  (s, some CartError.contextExpired)

/-- Witness for C3: a first attempt failing with `ContextExpired` leads to
replay and exactly one retry, whose result is returned unchanged. -/
theorem recovery_wrapped_call_behavior_witness :
    CartService.executeWithReplay initState opExpireW
      = opExpireW (CartService.replayEvents initState).1 :=
  recovery_wrapped_call_behavior.2.2.1 initState opExpireW initState rfl

/-- C5: error handling during replay.  A backend `ItemNotFound` on an
`ITEM_REMOVED` or `ITEM_UPDATED` replay step is swallowed and the loop
continues with the state unchanged; a context-expired failure arises on any
step — including `ITEM_ADDED` — when the handle is dead, and any propagating
step failure stops the loop and is returned, while a successful (or
swallowed) step lets the loop continue with the rest of the log. -/
theorem replay_swallows_item_not_found :
    (∀ (st : ServiceState) (ctxId : Nat) (itemId : String) (q ts : Int)
        (items : List CartItem), st.sf.contexts ctxId = some items →
        items.find? (fun it => it.id == itemId) = none →
        CartService.replayEventStep st ctxId (.itemRemoved itemId q ts)
            = (st, none)
        ∧ CartService.replayEventStep st ctxId (.itemUpdated itemId q ts)
            = (st, none))
    ∧ (∀ (st : ServiceState) (ctxId : Nat) (itemId : String) (ty : ItemType)
        (nm : String) (pr q ts : Int), st.sf.contexts ctxId = none →
        CartService.replayEventStep st ctxId
            (.itemAdded itemId ty nm pr q ts)
          = (st, some CartError.contextExpired))
    ∧ (∀ (st : ServiceState) (ctxId : Nat) (itemId : String) (q ts : Int),
        st.sf.contexts ctxId = none →
        CartService.replayEventStep st ctxId (.itemRemoved itemId q ts)
            = (st, some CartError.contextExpired)
        ∧ CartService.replayEventStep st ctxId (.itemUpdated itemId q ts)
            = (st, some CartError.contextExpired))
    ∧ (∀ (st : ServiceState) (ctxId : Nat) (e : CartEvent)
        (rest : List CartEvent) (st1 : ServiceState),
        CartService.replayEventStep st ctxId e = (st1, none) →
        CartService.replayLoop st ctxId (e :: rest)
          = CartService.replayLoop st1 ctxId rest)
    ∧ (∀ (st : ServiceState) (ctxId : Nat) (e : CartEvent)
        (rest : List CartEvent) (st1 : ServiceState) (err : CartError),
        CartService.replayEventStep st ctxId e = (st1, some err) →
        CartService.replayLoop st ctxId (e :: rest) = (st1, some err)) := by
  refine ⟨?_, ?_, ?_, ?_, ?_⟩
  · intro st ctxId itemId q ts items h hf
    constructor
    · simp only [CartService.replayEventStep, SalesforceCartClient.removeItem,
        SalesforceCartClient.sfItemsRemove, h, hf]
    · simp only [CartService.replayEventStep, SalesforceCartClient.updateItem,
        SalesforceCartClient.sfItemsUpdate, h, hf]
  · intro st ctxId itemId ty nm pr q ts h
    simp only [CartService.replayEventStep, SalesforceCartClient.addItem, h]
  · intro st ctxId itemId q ts h
    constructor
    · simp only [CartService.replayEventStep, SalesforceCartClient.removeItem,
        h]
    · simp only [CartService.replayEventStep, SalesforceCartClient.updateItem,
        h]
  · intro st ctxId e rest st1 h
    simp only [CartService.replayLoop, h]
  · intro st ctxId e rest st1 err h
    simp only [CartService.replayLoop, h]

/-- Fixture: a session holding a live, empty backend context 0. -/
def liveCtxStateW : ServiceState :=
  { session := { sfContextId := some 0, events := [], checkedOut := false },
    sf := { contexts := (fun c => if c = 0 then some [] else none),
            nextId := 1 } }

/-- Witness for C5: replaying a removal of an absent item over a live context
is swallowed. -/
theorem replay_swallows_item_not_found_witness :
    CartService.replayEventStep liveCtxStateW 0 (.itemRemoved "x" 1 0)
      = (liveCtxStateW, none) :=
  (replay_swallows_item_not_found.1 liveCtxStateW 0 "x" 1 0 []
    (by simp [liveCtxStateW]) rfl).1

section CoherenceLemmas

theorem coherent_none {st : ServiceState} (h : ctxCoherent st)
    (hc : st.session.sfContextId = none) : st.session.events = [] := by
  unfold ctxCoherent ctxCoherentB at h
  simp only [hc] at h
  simpa using h

theorem coherent_live {st : ServiceState} {c : Nat} {items : List CartItem}
    (h : ctxCoherent st) (hc : st.session.sfContextId = some c)
    (hl : st.sf.contexts c = some items) :
    items = CartStateManager.projItems st.session.events := by
  unfold ctxCoherent ctxCoherentB at h
  simp only [hc, hl] at h
  simpa using h

theorem coherent_of_live {st : ServiceState} {c : Nat}
    (hc : st.session.sfContextId = some c)
    (hl : st.sf.contexts c
      = some (CartStateManager.projItems st.session.events)) :
    ctxCoherent st := by
  unfold ctxCoherent ctxCoherentB
  simp [hc, hl]

end CoherenceLemmas

/-- The session's stored handle is live and holds exactly `items`. -/
def ctxHolds (st : ServiceState) (items : List CartItem) : Prop :=
  ∃ c, st.session.sfContextId = some c ∧ st.sf.contexts c = some items

section ExecLemmas

theorem sfItemsRemove_ok_eq_applyEvent {items : List CartItem}
    {itemId : String} {ex : CartItem} (q ts : Int)
    (hf : items.find? (fun it => it.id == itemId) = some ex) :
    SalesforceCartClient.sfItemsRemove items itemId (some q)
      = .ok (CartStateManager.applyEvent items
          (.itemRemoved itemId q ts)) := by
  simp only [SalesforceCartClient.sfItemsRemove, hf,
    CartStateManager.applyEvent]
  split <;> rfl

theorem sfItemsUpdate_ok_eq_applyEvent {items : List CartItem}
    {itemId : String} {ex : CartItem} (v ts : Int)
    (hf : items.find? (fun it => it.id == itemId) = some ex) :
    SalesforceCartClient.sfItemsUpdate items itemId v
      = .ok (CartStateManager.applyEvent items
          (.itemUpdated itemId v ts)) := by
  simp only [SalesforceCartClient.sfItemsUpdate, hf,
    CartStateManager.applyEvent]

theorem createContext_snd (sf : SfState) :
    (SalesforceCartClient.createContext sf).2 = sf.nextId := rfl

theorem createContext_get (sf : SfState) :
    (SalesforceCartClient.createContext sf).1.contexts sf.nextId
      = some [] := by
  simp [SalesforceCartClient.createContext]

theorem exec_backendAdd {st : ServiceState} (item : CartItem)
    (h : ctxCoherent st) :
    (CartService.executeWithReplay st (CartService.backendAdd item)).2 = none
    ∧ (CartService.executeWithReplay st
        (CartService.backendAdd item)).1.session.events = st.session.events
    ∧ (CartService.executeWithReplay st
        (CartService.backendAdd item)).1.session.checkedOut
      = st.session.checkedOut
    ∧ ctxHolds (CartService.executeWithReplay st
        (CartService.backendAdd item)).1
        (SalesforceCartClient.sfItemsAdd
          (CartStateManager.projItems st.session.events) item) := by
  rcases hc : st.session.sfContextId with _ | c
  · have hev : st.session.events = [] := coherent_none h hc
    refine ⟨?_, ?_, ?_, ?_⟩ <;>
      simp only [CartService.executeWithReplay, CartService.backendAdd,
        CartService.ensureSfContext, hc, SalesforceCartClient.addItem,
        createContext_snd, createContext_get]
    rw [hev]
    exact ⟨st.sf.nextId, rfl, setCtx_get _ _ _⟩
  · rcases hl : st.sf.contexts c with _ | items
    · refine ⟨?_, ?_, ?_, ?_⟩ <;>
        simp only [CartService.executeWithReplay, CartService.backendAdd,
          CartService.ensureSfContext, hc, SalesforceCartClient.addItem, hl,
          replayEvents_ok, setCtx_get]
      exact ⟨st.sf.nextId, rfl, setCtx_get _ _ _⟩
    · have hitems := coherent_live h hc hl
      subst hitems
      refine ⟨?_, ?_, ?_, ?_⟩ <;>
        simp only [CartService.executeWithReplay, CartService.backendAdd,
          CartService.ensureSfContext, hc, SalesforceCartClient.addItem, hl]
      exact ⟨c, hc, setCtx_get _ _ _⟩

theorem exec_backendRemove {st : ServiceState} {itemId : String}
    {ex : CartItem} (q ts : Int) (h : ctxCoherent st)
    (hfind : (CartStateManager.projItems st.session.events).find?
        (fun it => it.id == itemId) = some ex) :
    (CartService.executeWithReplay st
        (CartService.backendRemove itemId q)).2 = none
    ∧ (CartService.executeWithReplay st
        (CartService.backendRemove itemId q)).1.session.events
      = st.session.events
    ∧ (CartService.executeWithReplay st
        (CartService.backendRemove itemId q)).1.session.checkedOut
      = st.session.checkedOut
    ∧ ctxHolds (CartService.executeWithReplay st
        (CartService.backendRemove itemId q)).1
        (CartStateManager.applyEvent
          (CartStateManager.projItems st.session.events)
          (.itemRemoved itemId q ts)) := by
  rcases hc : st.session.sfContextId with _ | c
  · have hev : st.session.events = [] := coherent_none h hc
    rw [hev] at hfind
    simp [CartStateManager.projItems] at hfind
  · rcases hl : st.sf.contexts c with _ | items
    · refine ⟨?_, ?_, ?_, ?_⟩ <;>
        simp only [CartService.executeWithReplay, CartService.backendRemove,
          CartService.ensureSfContext, hc, SalesforceCartClient.removeItem,
          hl, replayEvents_ok, setCtx_get,
          sfItemsRemove_ok_eq_applyEvent q ts hfind]
      exact ⟨st.sf.nextId, rfl, setCtx_get _ _ _⟩
    · have hitems := coherent_live h hc hl
      subst hitems
      refine ⟨?_, ?_, ?_, ?_⟩ <;>
        simp only [CartService.executeWithReplay, CartService.backendRemove,
          CartService.ensureSfContext, hc, SalesforceCartClient.removeItem,
          hl, sfItemsRemove_ok_eq_applyEvent q ts hfind]
      exact ⟨c, hc, setCtx_get _ _ _⟩

theorem exec_backendUpdate {st : ServiceState} {itemId : String}
    {ex : CartItem} (v ts : Int) (h : ctxCoherent st)
    (hfind : (CartStateManager.projItems st.session.events).find?
        (fun it => it.id == itemId) = some ex) :
    (CartService.executeWithReplay st
        (CartService.backendUpdate itemId v)).2 = none
    ∧ (CartService.executeWithReplay st
        (CartService.backendUpdate itemId v)).1.session.events
      = st.session.events
    ∧ (CartService.executeWithReplay st
        (CartService.backendUpdate itemId v)).1.session.checkedOut
      = st.session.checkedOut
    ∧ ctxHolds (CartService.executeWithReplay st
        (CartService.backendUpdate itemId v)).1
        (CartStateManager.applyEvent
          (CartStateManager.projItems st.session.events)
          (.itemUpdated itemId v ts)) := by
  rcases hc : st.session.sfContextId with _ | c
  · have hev : st.session.events = [] := coherent_none h hc
    rw [hev] at hfind
    simp [CartStateManager.projItems] at hfind
  · rcases hl : st.sf.contexts c with _ | items
    · refine ⟨?_, ?_, ?_, ?_⟩ <;>
        simp only [CartService.executeWithReplay, CartService.backendUpdate,
          CartService.ensureSfContext, hc, SalesforceCartClient.updateItem,
          hl, replayEvents_ok, setCtx_get,
          sfItemsUpdate_ok_eq_applyEvent v ts hfind]
      exact ⟨st.sf.nextId, rfl, setCtx_get _ _ _⟩
    · have hitems := coherent_live h hc hl
      subst hitems
      refine ⟨?_, ?_, ?_, ?_⟩ <;>
        simp only [CartService.executeWithReplay, CartService.backendUpdate,
          CartService.ensureSfContext, hc, SalesforceCartClient.updateItem,
          hl, sfItemsUpdate_ok_eq_applyEvent v ts hfind]
      exact ⟨c, hc, setCtx_get _ _ _⟩

theorem exec_backendCheckout {st : ServiceState} (h : ctxCoherent st) :
    (CartService.executeWithReplay st CartService.backendCheckout).2 = none
    ∧ (CartService.executeWithReplay st
        CartService.backendCheckout).1.session.events = st.session.events
    ∧ (CartService.executeWithReplay st
        CartService.backendCheckout).1.session.checkedOut
      = st.session.checkedOut
    ∧ ctxCoherent (CartService.executeWithReplay st
        CartService.backendCheckout).1 := by
  rcases hc : st.session.sfContextId with _ | c
  · have hev : st.session.events = [] := coherent_none h hc
    refine ⟨?_, ?_, ?_, ?_⟩ <;>
      simp only [CartService.executeWithReplay, CartService.backendCheckout,
        CartService.ensureSfContext, hc, SalesforceCartClient.checkout,
        createContext_snd, createContext_get]
    exact coherent_of_live rfl
      (by simp [createContext_get, hev, CartStateManager.projItems])
  · rcases hl : st.sf.contexts c with _ | items
    · refine ⟨?_, ?_, ?_, ?_⟩ <;>
        simp only [CartService.executeWithReplay,
          CartService.backendCheckout, CartService.ensureSfContext, hc,
          SalesforceCartClient.checkout, hl, replayEvents_ok, setCtx_get]
      exact coherent_of_live rfl (setCtx_get _ _ _)
    · have hitems := coherent_live h hc hl
      subst hitems
      refine ⟨?_, ?_, ?_, ?_⟩ <;>
        simp only [CartService.executeWithReplay,
          CartService.backendCheckout, CartService.ensureSfContext, hc,
          SalesforceCartClient.checkout, hl]
      exact h

end ExecLemmas

section ServiceOpLemmas

theorem projItems_append_one (events : List CartEvent) (e : CartEvent) :
    CartStateManager.projItems (events ++ [e])
      = CartStateManager.applyEvent (CartStateManager.projItems events) e := by
  unfold CartStateManager.projItems
  rw [List.foldl_append]
  rfl

theorem serviceAddItem_invalid {req : AddItemRequest} {e : CartError}
    (st : ServiceState) (ts : Int)
    (hv : CartService.validateAddItemRequest req = some e) :
    CartService.addItem st req ts = (st, some e) := by
  simp only [CartService.addItem, hv]

theorem serviceAddItem_completed {req : AddItemRequest} (st : ServiceState)
    (ts : Int) (hv : CartService.validateAddItemRequest req = none)
    (hco : st.session.checkedOut = true) :
    CartService.addItem st req ts = (st, some .sessionCompleted) := by
  simp [CartService.addItem, hv, hco]

theorem serviceAddItem_ok {st : ServiceState} {req : AddItemRequest}
    (ts : Int) (h : ctxCoherent st)
    (hv : CartService.validateAddItemRequest req = none)
    (hco : st.session.checkedOut = false) :
    (CartService.addItem st req ts).2 = none
    ∧ (CartService.addItem st req ts).1.session.events
        = st.session.events
          ++ [CartEvent.itemAdded req.itemId req.type req.name req.price
            req.quantity ts]
    ∧ (CartService.addItem st req ts).1.session.checkedOut = false
    ∧ ctxCoherent (CartService.addItem st req ts).1 := by
  obtain ⟨h1, h2, h3, c', hcid, hctx⟩ :=
    exec_backendAdd ⟨req.itemId, req.type, req.name, req.price, req.quantity⟩
      h
  have hred : CartService.addItem st req ts
      = (CartService.appendEvent
          (CartService.executeWithReplay st
            (CartService.backendAdd
              ⟨req.itemId, req.type, req.name, req.price, req.quantity⟩)).1
          (.itemAdded req.itemId req.type req.name req.price req.quantity
            ts), none) := by
    simp only [CartService.addItem, hv, hco, h1, Bool.false_eq_true,
      if_false]
  rw [hred]
  refine ⟨rfl, ?_, ?_, ?_⟩
  · simp only [CartService.appendEvent]
    rw [h2]
  · simp only [CartService.appendEvent]
    rw [h3, hco]
  · refine coherent_of_live hcid ?_
    show (CartService.executeWithReplay st
        (CartService.backendAdd
          ⟨req.itemId, req.type, req.name, req.price,
            req.quantity⟩)).1.sf.contexts c'
      = some (CartStateManager.projItems
          ((CartService.executeWithReplay st
            (CartService.backendAdd
              ⟨req.itemId, req.type, req.name, req.price,
                req.quantity⟩)).1.session.events
            ++ [CartEvent.itemAdded req.itemId req.type req.name req.price
              req.quantity ts]))
    rw [h2, projItems_append_one,
      ← sfItemsAdd_eq_applyEvent _ req.itemId req.type req.name req.price
        req.quantity ts]
    exact hctx

theorem serviceRemoveItem_badq (st : ServiceState) (itemId : String)
    {q : Option Int} (ts : Int) (hq : CartService.qNonPositive q = true) :
    CartService.removeItem st itemId q ts = (st, some .invalidQuantity) := by
  simp [CartService.removeItem, hq]

theorem serviceRemoveItem_completed (st : ServiceState) (itemId : String)
    {q : Option Int} (ts : Int) (hq : CartService.qNonPositive q = false)
    (hco : st.session.checkedOut = true) :
    CartService.removeItem st itemId q ts = (st, some .sessionCompleted) := by
  simp [CartService.removeItem, hq, hco]

theorem serviceRemoveItem_notFound (st : ServiceState) (itemId : String)
    {q : Option Int} (ts : Int) (hq : CartService.qNonPositive q = false)
    (hco : st.session.checkedOut = false)
    (hf : (CartStateManager.projItems st.session.events).find?
        (fun it => it.id == itemId) = none) :
    CartService.removeItem st itemId q ts
      = (st, some (.itemNotFound itemId)) := by
  simp [CartService.removeItem, hq, hco, hf]

theorem serviceRemoveItem_ok {st : ServiceState} {itemId : String}
    {q : Option Int} {ex : CartItem} (ts : Int) (h : ctxCoherent st)
    (hq : CartService.qNonPositive q = false)
    (hco : st.session.checkedOut = false)
    (hf : (CartStateManager.projItems st.session.events).find?
        (fun it => it.id == itemId) = some ex) :
    (CartService.removeItem st itemId q ts).2 = none
    ∧ (CartService.removeItem st itemId q ts).1.session.events
        = st.session.events
          ++ [CartEvent.itemRemoved itemId
            (CartService.resolveQty q ex.quantity) ts]
    ∧ (CartService.removeItem st itemId q ts).1.session.checkedOut = false
    ∧ ctxCoherent (CartService.removeItem st itemId q ts).1 := by
  obtain ⟨h1, h2, h3, c', hcid, hctx⟩ :=
    exec_backendRemove (CartService.resolveQty q ex.quantity) ts h hf
  have hred : CartService.removeItem st itemId q ts
      = (CartService.appendEvent
          (CartService.executeWithReplay st
            (CartService.backendRemove itemId
              (CartService.resolveQty q ex.quantity))).1
          (.itemRemoved itemId (CartService.resolveQty q ex.quantity) ts),
        none) := by
    simp only [CartService.removeItem, hq, hco, hf, h1, Bool.false_eq_true,
      if_false]
  rw [hred]
  refine ⟨rfl, ?_, ?_, ?_⟩
  · simp only [CartService.appendEvent]
    rw [h2]
  · simp only [CartService.appendEvent]
    rw [h3, hco]
  · refine coherent_of_live hcid ?_
    show (CartService.executeWithReplay st
        (CartService.backendRemove itemId
          (CartService.resolveQty q ex.quantity))).1.sf.contexts c'
      = some (CartStateManager.projItems
          ((CartService.executeWithReplay st
            (CartService.backendRemove itemId
              (CartService.resolveQty q ex.quantity))).1.session.events
            ++ [CartEvent.itemRemoved itemId
              (CartService.resolveQty q ex.quantity) ts]))
    rw [h2, projItems_append_one]
    exact hctx

end ServiceOpLemmas

section ServiceOpLemmas2

theorem serviceUpdateItem_badv (st : ServiceState) (itemId : String)
    {v : Int} (ts : Int) (hv : v ≤ 0) :
    CartService.updateItem st itemId v ts = (st, some .invalidQuantity) := by
  simp [CartService.updateItem, hv]

theorem serviceUpdateItem_completed (st : ServiceState) (itemId : String)
    {v : Int} (ts : Int) (hv : ¬ v ≤ 0)
    (hco : st.session.checkedOut = true) :
    CartService.updateItem st itemId v ts = (st, some .sessionCompleted) := by
  simp [CartService.updateItem, hv, hco]

theorem serviceUpdateItem_notFound (st : ServiceState) (itemId : String)
    {v : Int} (ts : Int) (hv : ¬ v ≤ 0)
    (hco : st.session.checkedOut = false)
    (hf : (CartStateManager.projItems st.session.events).find?
        (fun it => it.id == itemId) = none) :
    CartService.updateItem st itemId v ts
      = (st, some (.itemNotFound itemId)) := by
  simp [CartService.updateItem, hv, hco, hf]

theorem serviceUpdateItem_ok {st : ServiceState} {itemId : String} {v : Int}
    {ex : CartItem} (ts : Int) (h : ctxCoherent st) (hv : ¬ v ≤ 0)
    (hco : st.session.checkedOut = false)
    (hf : (CartStateManager.projItems st.session.events).find?
        (fun it => it.id == itemId) = some ex) :
    (CartService.updateItem st itemId v ts).2 = none
    ∧ (CartService.updateItem st itemId v ts).1.session.events
        = st.session.events ++ [CartEvent.itemUpdated itemId v ts]
    ∧ (CartService.updateItem st itemId v ts).1.session.checkedOut = false
    ∧ ctxCoherent (CartService.updateItem st itemId v ts).1 := by
  obtain ⟨h1, h2, h3, c', hcid, hctx⟩ := exec_backendUpdate v ts h hf
  have hred : CartService.updateItem st itemId v ts
      = (CartService.appendEvent
          (CartService.executeWithReplay st
            (CartService.backendUpdate itemId v)).1
          (.itemUpdated itemId v ts), none) := by
    simp only [CartService.updateItem, if_neg hv, hco, hf, h1,
      Bool.false_eq_true, if_false]
  rw [hred]
  refine ⟨rfl, ?_, ?_, ?_⟩
  · simp only [CartService.appendEvent]
    rw [h2]
  · simp only [CartService.appendEvent]
    rw [h3, hco]
  · refine coherent_of_live hcid ?_
    show (CartService.executeWithReplay st
        (CartService.backendUpdate itemId v)).1.sf.contexts c'
      = some (CartStateManager.projItems
          ((CartService.executeWithReplay st
            (CartService.backendUpdate itemId v)).1.session.events
            ++ [CartEvent.itemUpdated itemId v ts]))
    rw [h2, projItems_append_one]
    exact hctx

theorem serviceCheckout_completed (st : ServiceState)
    (hco : st.session.checkedOut = true) :
    CartService.checkout st = (st, some .sessionCompleted) := by
  simp [CartService.checkout, hco]

theorem serviceCheckout_empty (st : ServiceState)
    (hco : st.session.checkedOut = false)
    (hemp : CartStateManager.projItems st.session.events = []) :
    CartService.checkout st = (st, some .emptyCart) := by
  simp [CartService.checkout, hco, hemp]

theorem serviceCheckout_ok {st : ServiceState} (h : ctxCoherent st)
    (hco : st.session.checkedOut = false)
    (hne : CartStateManager.projItems st.session.events ≠ []) :
    (CartService.checkout st).2 = none
    ∧ (CartService.checkout st).1.session.events = st.session.events
    ∧ (CartService.checkout st).1.session.checkedOut = true
    ∧ ctxCoherent (CartService.checkout st).1 := by
  obtain ⟨h1, h2, h3, h4⟩ := exec_backendCheckout h
  have hred : CartService.checkout st
      = (CartService.markCheckedOut
          (CartService.executeWithReplay st CartService.backendCheckout).1,
        none) := by
    simp only [CartService.checkout, hco, if_neg hne, h1,
      Bool.false_eq_true, if_false]
  rw [hred]
  refine ⟨rfl, ?_, rfl, ?_⟩
  · simp only [CartService.markCheckedOut]
    rw [h2]
  · exact h4

end ServiceOpLemmas2

section PreservationLemmas

theorem backendAdd_session (item : CartItem) (s : ServiceState) :
    ((CartService.backendAdd item s).1).session.events = s.session.events
    ∧ ((CartService.backendAdd item s).1).session.checkedOut
        = s.session.checkedOut := by
  rcases hc : s.session.sfContextId with _ | c <;>
    constructor <;>
      simp only [CartService.backendAdd, CartService.ensureSfContext, hc]

theorem backendRemove_session (itemId : String) (q : Int)
    (s : ServiceState) :
    ((CartService.backendRemove itemId q s).1).session.events
        = s.session.events
    ∧ ((CartService.backendRemove itemId q s).1).session.checkedOut
        = s.session.checkedOut := by
  rcases hc : s.session.sfContextId with _ | c <;>
    constructor <;>
      simp only [CartService.backendRemove, CartService.ensureSfContext, hc]

theorem backendUpdate_session (itemId : String) (v : Int)
    (s : ServiceState) :
    ((CartService.backendUpdate itemId v s).1).session.events
        = s.session.events
    ∧ ((CartService.backendUpdate itemId v s).1).session.checkedOut
        = s.session.checkedOut := by
  rcases hc : s.session.sfContextId with _ | c <;>
    constructor <;>
      simp only [CartService.backendUpdate, CartService.ensureSfContext, hc]

theorem backendCheckout_session (s : ServiceState) :
    ((CartService.backendCheckout s).1).session.events = s.session.events
    ∧ ((CartService.backendCheckout s).1).session.checkedOut
        = s.session.checkedOut := by
  rcases hc : s.session.sfContextId with _ | c <;>
    constructor <;>
      simp only [CartService.backendCheckout, CartService.ensureSfContext, hc]

theorem exec_preserves_session (st : ServiceState)
    (B : ServiceState → ServiceState × Option CartError)
    (hB : ∀ s, ((B s).1).session.events = s.session.events
      ∧ ((B s).1).session.checkedOut = s.session.checkedOut) :
    ((CartService.executeWithReplay st B).1).session.events
        = st.session.events
    ∧ ((CartService.executeWithReplay st B).1).session.checkedOut
        = st.session.checkedOut := by
  rcases hr : (B st).2 with _ | e
  · constructor
    · simp only [CartService.executeWithReplay, hr]
      exact (hB st).1
    · simp only [CartService.executeWithReplay, hr]
      exact (hB st).2
  · cases e with
    | contextExpired =>
      constructor
      · simp only [CartService.executeWithReplay, hr, replayEvents_ok]
        exact ((hB _).1).trans ((hB st).1)
      · simp only [CartService.executeWithReplay, hr, replayEvents_ok]
        exact ((hB _).2).trans ((hB st).2)
    | sessionNotFound =>
      constructor <;> simp only [CartService.executeWithReplay, hr]
      · exact (hB st).1
      · exact (hB st).2
    | itemNotFound itemId =>
      constructor <;> simp only [CartService.executeWithReplay, hr]
      · exact (hB st).1
      · exact (hB st).2
    | invalidQuantity =>
      constructor <;> simp only [CartService.executeWithReplay, hr]
      · exact (hB st).1
      · exact (hB st).2
    | emptyCart =>
      constructor <;> simp only [CartService.executeWithReplay, hr]
      · exact (hB st).1
      · exact (hB st).2
    | sessionCompleted =>
      constructor <;> simp only [CartService.executeWithReplay, hr]
      · exact (hB st).1
      · exact (hB st).2

end PreservationLemmas

section OpPreservation

theorem serviceAddItem_flag (st : ServiceState) (req : AddItemRequest)
    (ts : Int) :
    (CartService.addItem st req ts).1.session.checkedOut
      = st.session.checkedOut := by
  rcases hv : CartService.validateAddItemRequest req with _ | e
  · cases hco : st.session.checkedOut with
    | false =>
      have hp := exec_preserves_session st
        (CartService.backendAdd
          ⟨req.itemId, req.type, req.name, req.price, req.quantity⟩)
        (backendAdd_session _)
      rcases hr : (CartService.executeWithReplay st
          (CartService.backendAdd
            ⟨req.itemId, req.type, req.name, req.price,
              req.quantity⟩)).2 with _ | e2
      · have hred : CartService.addItem st req ts
            = (CartService.appendEvent
                (CartService.executeWithReplay st
                  (CartService.backendAdd
                    ⟨req.itemId, req.type, req.name, req.price,
                      req.quantity⟩)).1
                (.itemAdded req.itemId req.type req.name req.price
                  req.quantity ts), none) := by
          simp only [CartService.addItem, hv, hco, hr, Bool.false_eq_true,
            if_false]
        rw [hred]
        exact hp.2.trans hco
      · have hred : CartService.addItem st req ts
            = ((CartService.executeWithReplay st
                (CartService.backendAdd
                  ⟨req.itemId, req.type, req.name, req.price,
                    req.quantity⟩)).1, some e2) := by
          simp only [CartService.addItem, hv, hco, hr, Bool.false_eq_true,
            if_false]
        rw [hred]
        exact hp.2.trans hco
    | true =>
      rw [serviceAddItem_completed st ts hv hco]
      exact hco
  · rw [serviceAddItem_invalid st ts hv]

theorem serviceAddItem_err_events (st : ServiceState) (req : AddItemRequest)
    (ts : Int) (hne : (CartService.addItem st req ts).2 ≠ none) :
    (CartService.addItem st req ts).1.session.events
      = st.session.events := by
  rcases hv : CartService.validateAddItemRequest req with _ | e
  · cases hco : st.session.checkedOut with
    | false =>
      have hp := exec_preserves_session st
        (CartService.backendAdd
          ⟨req.itemId, req.type, req.name, req.price, req.quantity⟩)
        (backendAdd_session _)
      rcases hr : (CartService.executeWithReplay st
          (CartService.backendAdd
            ⟨req.itemId, req.type, req.name, req.price,
              req.quantity⟩)).2 with _ | e2
      · exfalso
        apply hne
        simp only [CartService.addItem, hv, hco, hr, Bool.false_eq_true,
          if_false]
      · have hred : CartService.addItem st req ts
            = ((CartService.executeWithReplay st
                (CartService.backendAdd
                  ⟨req.itemId, req.type, req.name, req.price,
                    req.quantity⟩)).1, some e2) := by
          simp only [CartService.addItem, hv, hco, hr, Bool.false_eq_true,
            if_false]
        rw [hred]
        exact hp.1
    | true => rw [serviceAddItem_completed st ts hv hco]
  · rw [serviceAddItem_invalid st ts hv]

theorem serviceRemoveItem_flag (st : ServiceState) (itemId : String)
    (q : Option Int) (ts : Int) :
    (CartService.removeItem st itemId q ts).1.session.checkedOut
      = st.session.checkedOut := by
  cases hq : CartService.qNonPositive q with
  | true => rw [serviceRemoveItem_badq st itemId ts hq]
  | false =>
    cases hco : st.session.checkedOut with
    | true =>
      rw [serviceRemoveItem_completed st itemId ts hq hco]
      exact hco
    | false =>
      rcases hf : (CartStateManager.projItems st.session.events).find?
          (fun it => it.id == itemId) with _ | ex
      · rw [serviceRemoveItem_notFound st itemId ts hq hco hf]
        exact hco
      · have hp := exec_preserves_session st
          (CartService.backendRemove itemId
            (CartService.resolveQty q ex.quantity))
          (backendRemove_session _ _)
        rcases hr : (CartService.executeWithReplay st
            (CartService.backendRemove itemId
              (CartService.resolveQty q ex.quantity))).2 with _ | e2
        · have hred : CartService.removeItem st itemId q ts
              = (CartService.appendEvent
                  (CartService.executeWithReplay st
                    (CartService.backendRemove itemId
                      (CartService.resolveQty q ex.quantity))).1
                  (.itemRemoved itemId
                    (CartService.resolveQty q ex.quantity) ts), none) := by
            simp only [CartService.removeItem, hq, hco, hf, hr,
              Bool.false_eq_true, if_false]
          rw [hred]
          exact hp.2.trans hco
        · have hred : CartService.removeItem st itemId q ts
              = ((CartService.executeWithReplay st
                  (CartService.backendRemove itemId
                    (CartService.resolveQty q ex.quantity))).1,
                some e2) := by
            simp only [CartService.removeItem, hq, hco, hf, hr,
              Bool.false_eq_true, if_false]
          rw [hred]
          exact hp.2.trans hco

theorem serviceRemoveItem_err_events (st : ServiceState) (itemId : String)
    (q : Option Int) (ts : Int)
    (hne : (CartService.removeItem st itemId q ts).2 ≠ none) :
    (CartService.removeItem st itemId q ts).1.session.events
      = st.session.events := by
  cases hq : CartService.qNonPositive q with
  | true => rw [serviceRemoveItem_badq st itemId ts hq]
  | false =>
    cases hco : st.session.checkedOut with
    | true => rw [serviceRemoveItem_completed st itemId ts hq hco]
    | false =>
      rcases hf : (CartStateManager.projItems st.session.events).find?
          (fun it => it.id == itemId) with _ | ex
      · rw [serviceRemoveItem_notFound st itemId ts hq hco hf]
      · have hp := exec_preserves_session st
          (CartService.backendRemove itemId
            (CartService.resolveQty q ex.quantity))
          (backendRemove_session _ _)
        rcases hr : (CartService.executeWithReplay st
            (CartService.backendRemove itemId
              (CartService.resolveQty q ex.quantity))).2 with _ | e2
        · exfalso
          apply hne
          simp only [CartService.removeItem, hq, hco, hf, hr,
            Bool.false_eq_true, if_false]
        · have hred : CartService.removeItem st itemId q ts
              = ((CartService.executeWithReplay st
                  (CartService.backendRemove itemId
                    (CartService.resolveQty q ex.quantity))).1,
                some e2) := by
            simp only [CartService.removeItem, hq, hco, hf, hr,
              Bool.false_eq_true, if_false]
          rw [hred]
          exact hp.1

theorem serviceUpdateItem_flag (st : ServiceState) (itemId : String)
    (v ts : Int) :
    (CartService.updateItem st itemId v ts).1.session.checkedOut
      = st.session.checkedOut := by
  by_cases hv0 : v ≤ 0
  · rw [serviceUpdateItem_badv st itemId ts hv0]
  · cases hco : st.session.checkedOut with
    | true =>
      rw [serviceUpdateItem_completed st itemId ts hv0 hco]
      exact hco
    | false =>
      rcases hf : (CartStateManager.projItems st.session.events).find?
          (fun it => it.id == itemId) with _ | ex
      · rw [serviceUpdateItem_notFound st itemId ts hv0 hco hf]
        exact hco
      · have hp := exec_preserves_session st
          (CartService.backendUpdate itemId v) (backendUpdate_session _ _)
        rcases hr : (CartService.executeWithReplay st
            (CartService.backendUpdate itemId v)).2 with _ | e2
        · have hred : CartService.updateItem st itemId v ts
              = (CartService.appendEvent
                  (CartService.executeWithReplay st
                    (CartService.backendUpdate itemId v)).1
                  (.itemUpdated itemId v ts), none) := by
            simp only [CartService.updateItem, if_neg hv0, hco, hf, hr,
              Bool.false_eq_true, if_false]
          rw [hred]
          exact hp.2.trans hco
        · have hred : CartService.updateItem st itemId v ts
              = ((CartService.executeWithReplay st
                  (CartService.backendUpdate itemId v)).1, some e2) := by
            simp only [CartService.updateItem, if_neg hv0, hco, hf, hr,
              Bool.false_eq_true, if_false]
          rw [hred]
          exact hp.2.trans hco

theorem serviceUpdateItem_err_events (st : ServiceState) (itemId : String)
    (v ts : Int)
    (hne : (CartService.updateItem st itemId v ts).2 ≠ none) :
    (CartService.updateItem st itemId v ts).1.session.events
      = st.session.events := by
  by_cases hv0 : v ≤ 0
  · rw [serviceUpdateItem_badv st itemId ts hv0]
  · cases hco : st.session.checkedOut with
    | true => rw [serviceUpdateItem_completed st itemId ts hv0 hco]
    | false =>
      rcases hf : (CartStateManager.projItems st.session.events).find?
          (fun it => it.id == itemId) with _ | ex
      · rw [serviceUpdateItem_notFound st itemId ts hv0 hco hf]
      · have hp := exec_preserves_session st
          (CartService.backendUpdate itemId v) (backendUpdate_session _ _)
        rcases hr : (CartService.executeWithReplay st
            (CartService.backendUpdate itemId v)).2 with _ | e2
        · exfalso
          apply hne
          simp only [CartService.updateItem, if_neg hv0, hco, hf, hr,
            Bool.false_eq_true, if_false]
        · have hred : CartService.updateItem st itemId v ts
              = ((CartService.executeWithReplay st
                  (CartService.backendUpdate itemId v)).1, some e2) := by
            simp only [CartService.updateItem, if_neg hv0, hco, hf, hr,
              Bool.false_eq_true, if_false]
          rw [hred]
          exact hp.1

theorem serviceCheckout_events (st : ServiceState) :
    (CartService.checkout st).1.session.events = st.session.events := by
  cases hco : st.session.checkedOut with
  | true => rw [serviceCheckout_completed st hco]
  | false =>
    by_cases hemp : CartStateManager.projItems st.session.events = []
    · rw [serviceCheckout_empty st hco hemp]
    · have hp := exec_preserves_session st CartService.backendCheckout
        backendCheckout_session
      rcases hr : (CartService.executeWithReplay st
          CartService.backendCheckout).2 with _ | e2
      · have hred : CartService.checkout st
            = (CartService.markCheckedOut
                (CartService.executeWithReplay st
                  CartService.backendCheckout).1, none) := by
          simp only [CartService.checkout, hco, if_neg hemp, hr,
            Bool.false_eq_true, if_false]
        rw [hred]
        exact hp.1
      · have hred : CartService.checkout st
            = ((CartService.executeWithReplay st
                CartService.backendCheckout).1, some e2) := by
          simp only [CartService.checkout, hco, if_neg hemp, hr,
            Bool.false_eq_true, if_false]
        rw [hred]
        exact hp.1

end OpPreservation

/-- C4: for each mutating operation the event is appended to the log exactly
when the recovery-wrapped backend mutation succeeded.  Whenever the operation
reports any error, the event log is unchanged; when the operation passes its
validation, completed-session, and (for remove/update) presence checks, its
success is equivalent to the success of the recovery-wrapped backend call,
and on success exactly the corresponding event is appended. -/
theorem event_appended_iff_backend_success :
    (∀ (st : ServiceState) (req : AddItemRequest) (ts : Int),
        (CartService.addItem st req ts).2 ≠ none →
        (CartService.addItem st req ts).1.session.events
          = st.session.events)
    ∧ (∀ (st : ServiceState) (itemId : String) (q : Option Int) (ts : Int),
        (CartService.removeItem st itemId q ts).2 ≠ none →
        (CartService.removeItem st itemId q ts).1.session.events
          = st.session.events)
    ∧ (∀ (st : ServiceState) (itemId : String) (v ts : Int),
        (CartService.updateItem st itemId v ts).2 ≠ none →
        (CartService.updateItem st itemId v ts).1.session.events
          = st.session.events)
    ∧ (∀ (st : ServiceState) (req : AddItemRequest) (ts : Int),
        CartService.validateAddItemRequest req = none →
        st.session.checkedOut = false →
        ((CartService.addItem st req ts).2 = none ↔
          (CartService.executeWithReplay st
            (CartService.backendAdd
              ⟨req.itemId, req.type, req.name, req.price, req.quantity⟩)).2
            = none)
        ∧ ((CartService.executeWithReplay st
              (CartService.backendAdd
                ⟨req.itemId, req.type, req.name, req.price,
                  req.quantity⟩)).2 = none →
            (CartService.addItem st req ts).1.session.events
              = st.session.events
                ++ [CartEvent.itemAdded req.itemId req.type req.name
                  req.price req.quantity ts]))
    ∧ (∀ (st : ServiceState) (itemId : String) (q : Option Int) (ts : Int)
        (ex : CartItem), CartService.qNonPositive q = false →
        st.session.checkedOut = false →
        (CartStateManager.projItems st.session.events).find?
            (fun it => it.id == itemId) = some ex →
        ((CartService.removeItem st itemId q ts).2 = none ↔
          (CartService.executeWithReplay st
            (CartService.backendRemove itemId
              (CartService.resolveQty q ex.quantity))).2 = none)
        ∧ ((CartService.executeWithReplay st
              (CartService.backendRemove itemId
                (CartService.resolveQty q ex.quantity))).2 = none →
            (CartService.removeItem st itemId q ts).1.session.events
              = st.session.events
                ++ [CartEvent.itemRemoved itemId
                  (CartService.resolveQty q ex.quantity) ts]))
    ∧ (∀ (st : ServiceState) (itemId : String) (v ts : Int)
        (ex : CartItem), ¬ v ≤ 0 → st.session.checkedOut = false →
        (CartStateManager.projItems st.session.events).find?
            (fun it => it.id == itemId) = some ex →
        ((CartService.updateItem st itemId v ts).2 = none ↔
          (CartService.executeWithReplay st
            (CartService.backendUpdate itemId v)).2 = none)
        ∧ ((CartService.executeWithReplay st
              (CartService.backendUpdate itemId v)).2 = none →
            (CartService.updateItem st itemId v ts).1.session.events
              = st.session.events
                ++ [CartEvent.itemUpdated itemId v ts])) := by
  refine ⟨serviceAddItem_err_events, serviceRemoveItem_err_events,
    serviceUpdateItem_err_events, ?_, ?_, ?_⟩
  · intro st req ts hv hco
    have hp := exec_preserves_session st
      (CartService.backendAdd
        ⟨req.itemId, req.type, req.name, req.price, req.quantity⟩)
      (backendAdd_session _)
    constructor
    · constructor
      · intro hs
        rcases hr : (CartService.executeWithReplay st
            (CartService.backendAdd
              ⟨req.itemId, req.type, req.name, req.price,
                req.quantity⟩)).2 with _ | e2
        · rfl
        · have hbad : (CartService.addItem st req ts).2 = some e2 := by
            simp only [CartService.addItem, hv, hco, hr,
              Bool.false_eq_true, if_false]
          rw [hs] at hbad
          cases hbad
      · intro hb
        simp only [CartService.addItem, hv, hco, hb, Bool.false_eq_true,
          if_false]
    · intro hb
      have hred : CartService.addItem st req ts
          = (CartService.appendEvent
              (CartService.executeWithReplay st
                (CartService.backendAdd
                  ⟨req.itemId, req.type, req.name, req.price,
                    req.quantity⟩)).1
              (.itemAdded req.itemId req.type req.name req.price
                req.quantity ts), none) := by
        simp only [CartService.addItem, hv, hco, hb, Bool.false_eq_true,
          if_false]
      rw [hred]
      exact congrArg
        (fun l => l ++ [CartEvent.itemAdded req.itemId req.type req.name
          req.price req.quantity ts]) hp.1
  · intro st itemId q ts ex hq hco hf
    have hp := exec_preserves_session st
      (CartService.backendRemove itemId
        (CartService.resolveQty q ex.quantity))
      (backendRemove_session _ _)
    constructor
    · constructor
      · intro hs
        rcases hr : (CartService.executeWithReplay st
            (CartService.backendRemove itemId
              (CartService.resolveQty q ex.quantity))).2 with _ | e2
        · rfl
        · have hbad : (CartService.removeItem st itemId q ts).2
              = some e2 := by
            simp only [CartService.removeItem, hq, hco, hf, hr,
              Bool.false_eq_true, if_false]
          rw [hs] at hbad
          cases hbad
      · intro hb
        simp only [CartService.removeItem, hq, hco, hf, hb,
          Bool.false_eq_true, if_false]
    · intro hb
      have hred : CartService.removeItem st itemId q ts
          = (CartService.appendEvent
              (CartService.executeWithReplay st
                (CartService.backendRemove itemId
                  (CartService.resolveQty q ex.quantity))).1
              (.itemRemoved itemId (CartService.resolveQty q ex.quantity)
                ts), none) := by
        simp only [CartService.removeItem, hq, hco, hf, hb,
          Bool.false_eq_true, if_false]
      rw [hred]
      exact congrArg
        (fun l => l ++ [CartEvent.itemRemoved itemId
          (CartService.resolveQty q ex.quantity) ts]) hp.1
  · intro st itemId v ts ex hv0 hco hf
    have hp := exec_preserves_session st
      (CartService.backendUpdate itemId v) (backendUpdate_session _ _)
    constructor
    · constructor
      · intro hs
        rcases hr : (CartService.executeWithReplay st
            (CartService.backendUpdate itemId v)).2 with _ | e2
        · rfl
        · have hbad : (CartService.updateItem st itemId v ts).2
              = some e2 := by
            simp only [CartService.updateItem, if_neg hv0, hco, hf, hr,
              Bool.false_eq_true, if_false]
          rw [hs] at hbad
          cases hbad
      · intro hb
        simp only [CartService.updateItem, if_neg hv0, hco, hf, hb,
          Bool.false_eq_true, if_false]
    · intro hb
      have hred : CartService.updateItem st itemId v ts
          = (CartService.appendEvent
              (CartService.executeWithReplay st
                (CartService.backendUpdate itemId v)).1
              (.itemUpdated itemId v ts), none) := by
        simp only [CartService.updateItem, if_neg hv0, hco, hf, hb,
          Bool.false_eq_true, if_false]
      rw [hred]
      exact congrArg
        (fun l => l ++ [CartEvent.itemUpdated itemId v ts]) hp.1

/-- Witness for C4: a failing removal (item absent) leaves the log
unchanged. -/
theorem event_appended_iff_backend_success_witness :
    (CartService.removeItem initState "x" none 0).1.session.events
      = initState.session.events :=
  event_appended_iff_backend_success.2.1 initState "x" none 0 (by decide)

/-- C6: `removeItem` semantics.  On an active session a missing item fails
with `ItemNotFound` returning the state untouched (the backend is never
reached); a present item always succeeds, appending `ITEM_REMOVED` with the
resolved amount `min(quantity ?? current, current)`; and when the requested
quantity covers the current quantity the item is absent from the resulting
projection. -/
theorem remove_item_semantics :
    (∀ (st : ServiceState) (itemId : String) (q : Option Int) (ts : Int),
        CartService.qNonPositive q = false →
        st.session.checkedOut = false →
        (CartStateManager.projItems st.session.events).find?
            (fun it => it.id == itemId) = none →
        CartService.removeItem st itemId q ts
          = (st, some (CartError.itemNotFound itemId)))
    ∧ (∀ (st : ServiceState) (itemId : String) (q : Option Int) (ts : Int)
        (ex : CartItem), ctxCoherent st →
        CartService.qNonPositive q = false →
        st.session.checkedOut = false →
        (CartStateManager.projItems st.session.events).find?
            (fun it => it.id == itemId) = some ex →
        (CartService.removeItem st itemId q ts).2 = none
        ∧ (CartService.removeItem st itemId q ts).1.session.events
            = st.session.events
              ++ [CartEvent.itemRemoved itemId
                (CartService.resolveQty q ex.quantity) ts])
    ∧ (∀ (st : ServiceState) (itemId : String) (q : Option Int) (ts : Int)
        (ex : CartItem), ctxCoherent st →
        CartService.qNonPositive q = false →
        st.session.checkedOut = false →
        (CartStateManager.projItems st.session.events).find?
            (fun it => it.id == itemId) = some ex →
        (∀ v, q = some v → ex.quantity ≤ v) →
        (CartStateManager.projItems
            (CartService.removeItem st itemId q ts).1.session.events).find?
            (fun it => it.id == itemId) = none) := by
  refine ⟨serviceRemoveItem_notFound, ?_, ?_⟩
  · intro st itemId q ts ex h hq hco hf
    obtain ⟨h1, h2, h3, h4⟩ := serviceRemoveItem_ok ts h hq hco hf
    exact ⟨h1, h2⟩
  · intro st itemId q ts ex h hq hco hf hge
    obtain ⟨h1, h2, h3, h4⟩ := serviceRemoveItem_ok ts h hq hco hf
    rw [h2, projItems_append_one]
    have hres : ex.quantity ≤ CartService.resolveQty q ex.quantity := by
      cases q with
      | none => exact le_refl _
      | some v => exact le_min (hge v rfl) (le_refl _)
    simp only [CartStateManager.applyEvent, hf, if_pos hres]
    exact find?_removeById _ _

/-- Fixture: one item "x" with quantity 3 in a fresh session. -/
def oneItemStateW : ServiceState :=
  (CartService.addItem initState ⟨"x", ItemType.DEVICE, "X", 10, 3⟩ 0).1

/-- Witness for C6: removing quantity 5 of an item with quantity 3 succeeds
and the item is absent from the resulting projection. -/
theorem remove_item_semantics_witness :
    (CartService.removeItem oneItemStateW "x" (some 5) 1).2 = none
    ∧ (CartStateManager.projItems
        (CartService.removeItem oneItemStateW "x"
          (some 5) 1).1.session.events).find? (fun it => it.id == "x")
      = none :=
  ⟨(remove_item_semantics.2.1 oneItemStateW "x" (some 5) 1
      (CartItem.mk "x" ItemType.DEVICE "X" 10 3) (by decide) (by decide)
      (by decide) (by decide)).1,
   remove_item_semantics.2.2 oneItemStateW "x" (some 5) 1
      (CartItem.mk "x" ItemType.DEVICE "X" 10 3) (by decide) (by decide)
      (by decide) (by decide)
      (fun v hv => by injection hv with h2; subst h2; decide)⟩

/-- C8: the completed flag is terminal.  Checkout on a completed session
fails `SessionCompleted`; checkout on an active session with an empty
projection fails `EmptyCart`; a successful checkout flips the flag to true
without touching the log; only checkout changes the flag (the three item
operations preserve it); and on a completed session no mutating operation
succeeds or appends an event. -/
theorem checkout_completed_terminal :
    (∀ st : ServiceState, st.session.checkedOut = true →
        CartService.checkout st = (st, some CartError.sessionCompleted))
    ∧ (∀ st : ServiceState, st.session.checkedOut = false →
        CartStateManager.projItems st.session.events = [] →
        CartService.checkout st = (st, some CartError.emptyCart))
    ∧ (∀ st : ServiceState, ctxCoherent st →
        st.session.checkedOut = false →
        CartStateManager.projItems st.session.events ≠ [] →
        (CartService.checkout st).2 = none
        ∧ (CartService.checkout st).1.session.checkedOut = true
        ∧ (CartService.checkout st).1.session.events = st.session.events)
    ∧ (∀ (st : ServiceState) (op : ClientOp) (ts : Int),
        (dispatch st op ts).1.session.checkedOut = st.session.checkedOut)
    ∧ (∀ (st : ServiceState) (op : ClientOp) (ts : Int),
        st.session.checkedOut = true →
        (dispatch st op ts).2 ≠ none
        ∧ (dispatch st op ts).1.session.events = st.session.events) := by
  refine ⟨serviceCheckout_completed, serviceCheckout_empty, ?_, ?_, ?_⟩
  · intro st h hco hne
    obtain ⟨h1, h2, h3, h4⟩ := serviceCheckout_ok h hco hne
    exact ⟨h1, h3, h2⟩
  · intro st op ts
    cases op with
    | add req =>
      simp only [dispatch]
      exact serviceAddItem_flag st req ts
    | remove itemId q =>
      simp only [dispatch]
      exact serviceRemoveItem_flag st itemId q ts
    | update itemId v =>
      simp only [dispatch]
      exact serviceUpdateItem_flag st itemId v ts
  · intro st op ts hco
    cases op with
    | add req =>
      rcases hv : CartService.validateAddItemRequest req with _ | e
      · simp only [dispatch]
        rw [serviceAddItem_completed st ts hv hco]
        exact ⟨by simp, rfl⟩
      · simp only [dispatch]
        rw [serviceAddItem_invalid st ts hv]
        exact ⟨by simp, rfl⟩
    | remove itemId q =>
      cases hq : CartService.qNonPositive q with
      | true =>
        simp only [dispatch]
        rw [serviceRemoveItem_badq st itemId ts hq]
        exact ⟨by simp, rfl⟩
      | false =>
        simp only [dispatch]
        rw [serviceRemoveItem_completed st itemId ts hq hco]
        exact ⟨by simp, rfl⟩
    | update itemId v =>
      by_cases hv0 : v ≤ 0
      · simp only [dispatch]
        rw [serviceUpdateItem_badv st itemId ts hv0]
        exact ⟨by simp, rfl⟩
      · simp only [dispatch]
        rw [serviceUpdateItem_completed st itemId ts hv0 hco]
        exact ⟨by simp, rfl⟩

/-- Fixture: a session that has been checked out (one item, then a
successful checkout). -/
def completedStateW : ServiceState :=
  (CartService.checkout
    (CartService.addItem initState
      ⟨"item1", ItemType.DEVICE, "iPhone", 99900, 1⟩ 0).1).1

/-- Witness for C8: a second checkout of a completed session fails with
`SessionCompleted`. -/
theorem checkout_completed_terminal_witness :
    CartService.checkout completedStateW
      = (completedStateW, some CartError.sessionCompleted) :=
  checkout_completed_terminal.1 completedStateW (by decide)

/-- C9 (amended): for checkout the completed check is performed first, and
for all operations the completed check precedes any backend interaction.
For addItem, removeItem and updateItem, however, input validation precedes
the completed check: a valid request on a completed session fails
`SessionCompleted` with the state untouched, while an invalid request on a
completed session fails `InvalidQuantity`. -/
theorem validation_precedes_completed_check :
    (∀ (st : ServiceState) (req : AddItemRequest) (ts : Int)
        (e : CartError), CartService.validateAddItemRequest req = some e →
        CartService.addItem st req ts = (st, some e))
    ∧ (∀ (st : ServiceState) (req : AddItemRequest) (ts : Int),
        CartService.validateAddItemRequest req = none →
        st.session.checkedOut = true →
        CartService.addItem st req ts
          = (st, some CartError.sessionCompleted))
    ∧ (∀ (st : ServiceState) (itemId : String) (q : Option Int) (ts : Int),
        CartService.qNonPositive q = true →
        CartService.removeItem st itemId q ts
          = (st, some CartError.invalidQuantity))
    ∧ (∀ (st : ServiceState) (itemId : String) (q : Option Int) (ts : Int),
        CartService.qNonPositive q = false →
        st.session.checkedOut = true →
        CartService.removeItem st itemId q ts
          = (st, some CartError.sessionCompleted))
    ∧ (∀ (st : ServiceState) (itemId : String) (v ts : Int), v ≤ 0 →
        CartService.updateItem st itemId v ts
          = (st, some CartError.invalidQuantity))
    ∧ (∀ (st : ServiceState) (itemId : String) (v ts : Int), ¬ v ≤ 0 →
        st.session.checkedOut = true →
        CartService.updateItem st itemId v ts
          = (st, some CartError.sessionCompleted))
    ∧ (∀ st : ServiceState, st.session.checkedOut = true →
        CartService.checkout st
          = (st, some CartError.sessionCompleted)) := by
  refine ⟨?_, ?_, ?_, ?_, ?_, ?_, serviceCheckout_completed⟩
  · intro st req ts e hv
    exact serviceAddItem_invalid st ts hv
  · intro st req ts hv hco
    exact serviceAddItem_completed st ts hv hco
  · intro st itemId q ts hq
    exact serviceRemoveItem_badq st itemId ts hq
  · intro st itemId q ts hq hco
    exact serviceRemoveItem_completed st itemId ts hq hco
  · intro st itemId v ts hv0
    exact serviceUpdateItem_badv st itemId ts hv0
  · intro st itemId v ts hv0 hco
    exact serviceUpdateItem_completed st itemId ts hv0 hco

/-- Witness for the amended C9: a valid add against a completed session
fails `SessionCompleted`. -/
theorem validation_precedes_completed_check_witness :
    CartService.addItem completedStateW
        ⟨"item2", ItemType.PLAN, "Plan", 5000, 1⟩ 1
      = (completedStateW, some CartError.sessionCompleted) :=
  validation_precedes_completed_check.2.1 completedStateW
    ⟨"item2", ItemType.PLAN, "Plan", 5000, 1⟩ 1 (by decide) (by decide)

/-- C9 counterexample: the claim says the completed check runs before input
validation, so an invalid request on a completed session would yield
`SessionCompleted`; the code validates first and yields `InvalidQuantity`. -/
theorem invalid_on_completed_cex :
    completedStateW.session.checkedOut = true
    ∧ (CartService.addItem completedStateW
        ⟨"item2", ItemType.PLAN, "Plan", 5000, 0⟩ 1).2
      = some CartError.invalidQuantity
    ∧ CartError.invalidQuantity ≠ CartError.sessionCompleted := by
  refine ⟨by decide, by decide, by decide⟩

section StepAbstraction

theorem dispatch_step_abs (st : ServiceState) (op : ClientOp) (ts : Int)
    (h : ctxCoherent st) :
    (dispatch st op ts).1.session.events
        = absStep st.session.events st.session.checkedOut op ts
    ∧ (dispatch st op ts).1.session.checkedOut = st.session.checkedOut
    ∧ ctxCoherent (dispatch st op ts).1 := by
  cases op with
  | add req =>
    simp only [dispatch]
    rcases hv : CartService.validateAddItemRequest req with _ | e
    · cases hco : st.session.checkedOut with
      | false =>
        obtain ⟨h1, h2, h3, h4⟩ := serviceAddItem_ok ts h hv hco
        refine ⟨?_, h3, h4⟩
        rw [h2]
        simp [absStep, hv]
      | true =>
        rw [serviceAddItem_completed st ts hv hco]
        exact ⟨by simp [absStep, hv], hco, h⟩
    · rw [serviceAddItem_invalid st ts hv]
      exact ⟨by simp [absStep, hv], rfl, h⟩
  | remove itemId q =>
    simp only [dispatch]
    cases hq : CartService.qNonPositive q with
    | true =>
      rw [serviceRemoveItem_badq st itemId ts hq]
      exact ⟨by simp [absStep, hq], rfl, h⟩
    | false =>
      cases hco : st.session.checkedOut with
      | true =>
        rw [serviceRemoveItem_completed st itemId ts hq hco]
        exact ⟨by simp [absStep, hq], hco, h⟩
      | false =>
        rcases hf : (CartStateManager.projItems st.session.events).find?
            (fun it => it.id == itemId) with _ | ex
        · rw [serviceRemoveItem_notFound st itemId ts hq hco hf]
          exact ⟨by simp [absStep, hq, hf], hco, h⟩
        · obtain ⟨h1, h2, h3, h4⟩ := serviceRemoveItem_ok ts h hq hco hf
          refine ⟨?_, h3, h4⟩
          rw [h2]
          simp [absStep, hq, hf]
  | update itemId v =>
    simp only [dispatch]
    by_cases hv0 : v ≤ 0
    · rw [serviceUpdateItem_badv st itemId ts hv0]
      exact ⟨by simp [absStep, hv0], rfl, h⟩
    · cases hco : st.session.checkedOut with
      | true =>
        rw [serviceUpdateItem_completed st itemId ts hv0 hco]
        exact ⟨by simp [absStep, hv0], hco, h⟩
      | false =>
        rcases hf : (CartStateManager.projItems st.session.events).find?
            (fun it => it.id == itemId) with _ | ex
        · rw [serviceUpdateItem_notFound st itemId ts hv0 hco hf]
          exact ⟨by simp [absStep, hv0, hf], hco, h⟩
        · obtain ⟨h1, h2, h3, h4⟩ := serviceUpdateItem_ok ts h hv0 hco hf
          refine ⟨?_, h3, h4⟩
          rw [h2]
          simp [absStep, hv0, hf]

theorem expire_coherent (st : ServiceState) (h : ctxCoherent st) :
    ctxCoherent (expireAllContexts st) := by
  unfold ctxCoherent ctxCoherentB at h ⊢
  rcases hc : st.session.sfContextId with _ | c
  · simp only [expireAllContexts, hc] at h ⊢
    exact h
  · simp only [expireAllContexts, hc]

theorem runPre_session (st : ServiceState) :
    ∀ flag : Bool,
      (if flag then expireAllContexts st else st).session = st.session
  | false => rfl
  | true => rfl

theorem runPre_coherent {st : ServiceState} (h : ctxCoherent st) :
    ∀ flag : Bool, ctxCoherent (if flag then expireAllContexts st else st)
  | false => h
  | true => expire_coherent st h

theorem runOps_abs :
    ∀ (ops : List (Bool × ClientOp)) (st : ServiceState), ctxCoherent st →
      (runOps st ops).session.events
          = absRun st.session.events st.session.checkedOut
              (ops.map (fun x => x.2))
      ∧ (runOps st ops).session.checkedOut = st.session.checkedOut
      ∧ ctxCoherent (runOps st ops) := by
  intro ops
  induction ops with
  | nil => exact fun st h => ⟨rfl, rfl, h⟩
  | cons p rest ih =>
    intro st h
    rcases p with ⟨flag, op⟩
    have hses := runPre_session st flag
    have h0 := runPre_coherent h flag
    obtain ⟨hd1, hd2, hd3⟩ :=
      dispatch_step_abs (if flag then expireAllContexts st else st) op 0 h0
    obtain ⟨ih1, ih2, ih3⟩ :=
      ih (dispatch (if flag then expireAllContexts st else st) op 0).1 hd3
    have hrun : runOps st ((flag, op) :: rest)
        = runOps
            (dispatch (if flag then expireAllContexts st else st) op 0).1
            rest := rfl
    rw [hrun]
    refine ⟨?_, ?_, ih3⟩
    · simp only [List.map_cons, absRun]
      rw [ih1, hd1, hd2, hses]
    · rw [ih2, hd2, hses]

end StepAbstraction

/-- C2: expiry transparency.  Running any sequence of client operations with
backend-context expiries injected at arbitrary points yields exactly the same
event log — and hence the same final cart projection, for every tax rate —
as running the same operations with no expiries at all. -/
theorem replay_equivalence (ops : List (Bool × ClientOp)) :
    (runOps initState ops).session.events
        = (runOps initState
            (ops.map (fun x => (false, x.2)))).session.events
    ∧ ∀ (r : ℚ) (sid : String),
        CartStateManager.buildCartFromEvents r sid
            (runOps initState ops).session.events
          = CartStateManager.buildCartFromEvents r sid
              (runOps initState
                (ops.map (fun x => (false, x.2)))).session.events := by
  have hinit : ctxCoherent initState := by decide
  obtain ⟨h1, h2, h3⟩ := runOps_abs ops initState hinit
  obtain ⟨h4, h5, h6⟩ :=
    runOps_abs (ops.map (fun x => (false, x.2))) initState hinit
  have hmap : (ops.map (fun x => (false, x.2))).map (fun x => x.2)
      = ops.map (fun x => x.2) := by
    rw [List.map_map]
    rfl
  have hev : (runOps initState ops).session.events
      = (runOps initState
          (ops.map (fun x => (false, x.2)))).session.events := by
    rw [h1, h4, hmap]
  exact ⟨hev, fun r sid => by rw [hev]⟩
